import Mathlib

/-!
Event ingestion pipeline of `lib/events.js`.

A shallow embedding of `hasError`, `reportError`, `processHeaders`, `parseEvents`,
`promisifyInputs` and `processEvents`, followed by the properties of the pipeline.

JavaScript objects are association lists from property names to values, in insertion
order; property values are scalars, dates or arrays of strings.  The helper library (`utils.hash`, `_.parseInt`, `moment`, `JSON.stringify`) and the
collaborators (`mongo`, `alarms`, `utils.getGeoIP`, `utils.verifyRequestSignature`) are
parameters of the model.  A promise chain is a computation that either resolves or rejects
and that records, in order, every call issued to the store or to the alarm sink.
-/

namespace Fbtrex

/-! ## Values and objects -/

/-- JavaScript values that occur in header bags, event fields and stored records. -/
inductive JVal
  | undefined
  | null
  | bool (b : Bool)
  | num (n : Int)
  | nan
  | str (s : String)
  | date (iso : String)
  | strs (xs : List String)
  deriving DecidableEq, Repr

/-- A JavaScript object with plain property names: its own properties in insertion order.
A plain property name has no path syntax (no `.` and no `[`) and is not a property that
objects inherit from `Object.prototype` (`constructor`, `toString`, ...); on such names
lodash `_.get` and `_.set` read and write one own property.  Every name this development
applies them to is plain. -/
abbrev JObj := List (String × JVal)

/-- Property read `o.k` (lodash `_.get(o, k)` on a plain name): `undefined` when absent. -/
def getField (o : JObj) (k : String) : JVal :=
  match o.lookup k with
  | some v => v
  | none => JVal.undefined

/-- Property write `o.k = v` (lodash `_.set(o, k, v)` on a plain name). -/
def setField : JObj → String → JVal → JObj
  | [], k, v => [(k, v)]
  | (k0, v0) :: rest, k, v =>
    if k0 = k then (k, v) :: rest else (k0, v0) :: setField rest k v

/-- Lodash `_.pick(o, keys)`: the properties of `o` named in `keys`, in the order of `keys`. -/
def pick (o : JObj) (keys : List String) : JObj :=
  keys.filterMap (fun k => (o.lookup k).map (fun v => (k, v)))

/-- Lodash `_.omit(o, keys)`: `o` without the properties named in `keys`. -/
def omitKeys (o : JObj) (keys : List String) : JObj :=
  o.filter (fun p => !(keys.contains p.1))

/-- Lodash `_.size`: length of a string or of an array, 0 for the other values modelled. -/
def size : JVal → Nat
  | JVal.str s => s.length
  | JVal.strs xs => xs.length
  | _ => 0

/-- JavaScript truthiness. -/
def truthy : JVal → Bool
  | JVal.undefined => false
  | JVal.null => false
  | JVal.nan => false
  | JVal.bool b => b
  | JVal.num n => n != 0
  | JVal.str s => s != ""
  | JVal.date _ => true
  | JVal.strs _ => true

/-- Lodash `_.compact` on the array built by `processHeaders`, whose entries are `null`
(here `none`) or a header name: the falsy entries, `null` and the empty string, are dropped. -/
def compact (errs : List (Option String)) : List String :=
  errs.filterMap (fun e =>
    match e with
    | some s => if s = "" then none else some s
    | none => none)

/-! ## The helper library -/

/-- The object `JSON.stringify` is applied to by `parseEvents`. -/
structure ErrorEntry where
  kind : String
  event : JObj
  deriving DecidableEq, Repr

/-- The pure helpers the module calls: `utils.hash`, `_.parseInt`,
`new Date(moment(v).toISOString())`, the clock, and `JSON.stringify` of an error entry.
The clock is read as the one instant `now` for the whole request: `moment().toISOString()`
is the string `now`, `new Date()` and `new Date(moment().toISOString())` are the date
`now`. -/
structure Utils where
  hash : JObj → String
  parseInt : JVal → JVal
  toDate : JVal → JVal
  now : String
  stringify : ErrorEntry → String

/-! ## `hasError`, `reportError`, `processHeaders` -/

/-- Source `hasError(retDict)`: `!_.isUndefined(_.get(retDict, 'error'))`. -/
def hasError (retDict : JObj) : Bool :=
  !(decide (getField retDict "error" = JVal.undefined))

/-- Source `reportError(where, err)`.  Its first statement is
`debug("...", req.randomUnicode, where, err)`; the parameters of the function are `where`
and `err`, and the module declares no `req`, so evaluating the argument `req.randomUnicode`
raises a `ReferenceError`.  The call to `alarms.reportAlarm` that follows is never reached:
the function throws synchronously and issues no call. -/
def reportError {α : Type} (_place : String) (_err : α) : Except String Unit :=
  Except.error "req is not defined"

/-- The side effect of the `_.map` callback of `processHeaders` on `ret`: every manifest
entry whose header is defined in `received` is copied to its destination field.  The
destination is written as one own property, which is what `_.set` does on a plain
property name, as are the six destination fields of `processEvents`. -/
def collectHeaders (received : JObj) (required : List (String × String)) : JObj :=
  required.foldl (fun ret p =>
    if getField received p.1 = JVal.undefined then ret
    else setField ret p.2 (getField received p.1)) []

/-- The value of the `_.map` of `processHeaders`: for every manifest entry, the header
name when the header is undefined in `received`, `null` otherwise.  The header is read as
one own property, which is what `_.get` does on a plain property name, as are the six
header names of `processEvents`. -/
def missingHeaders (received : JObj) (required : List (String × String)) :
    List (Option String) :=
  required.map (fun p =>
    if getField received p.1 = JVal.undefined then some p.1 else none)

/-- Source `processHeaders(received, required)`; `required` is the manifest in enumeration
order, a list of (header name, destination field), all of them plain property names: the
function is private to the module and its one caller, `processEvents`, passes such a
manifest. -/
def processHeaders (received : JObj) (required : List (String × String)) : JObj :=
  let ret := collectHeaders received required
  let errs := compact (missingHeaders received required)
  if errs.length ≠ 0 then [("errors", JVal.strs errs)] else ret

/-! ## `parseEvents` -/

/-- The `sessionInfo` property of the accumulator. -/
structure SessionInfo where
  geoip : JVal
  numId : JVal
  publicKey : JVal
  version : JVal
  deriving DecidableEq, Repr

/-- The accumulator of the fold: the three record buckets, the `errors` property seeded
by `promisifyInputs`, the `error` property created by `parseEvents` (`none` while it is
undefined) and the session metadata. -/
structure Memo where
  timelines : List JObj
  impressions : List JObj
  htmls : List JObj
  errors : List String
  error : Option (List String)
  sessionInfo : SessionInfo
  deriving DecidableEq, Repr

/-- Source `hasError` applied to the accumulator: its `error` property is defined. -/
def hasErrorMemo (memo : Memo) : Bool :=
  memo.error.isSome

/-- The timeline branch of `parseEvents`: the object `newTmln`. -/
def newTimeline (u : Utils) (memo : Memo) (evnt : JObj) : JObj :=
  let newTmln : JObj := []
  let newTmln := setField newTmln "startTime" (u.toDate (getField evnt "startTime"))
  let newTmln := setField newTmln "userId" memo.sessionInfo.numId
  let newTmln := setField newTmln "geoip" memo.sessionInfo.geoip
  let newTmln := setField newTmln "id"
    (JVal.str (u.hash [("uuid", getField evnt "id"), ("user", memo.sessionInfo.numId)]))
  let newTmln :=
    if getField evnt "location" ≠ JVal.str "https://www.facebook.com/" then
      setField newTmln "nonfeed" (JVal.bool true)
    else newTmln
  if truthy (getField evnt "tagId") then setField newTmln "tagId" (getField evnt "tagId")
  else newTmln

/-- The impression branch of `parseEvents`, up to the test of the visibility: the object
`impression` with its derived identifiers. -/
def baseImpression (u : Utils) (memo : Memo) (evnt : JObj) : JObj :=
  let impression := pick evnt ["visibility", "html"]
  let impression := setField impression "timelineId"
    (JVal.str (u.hash [("uuid", getField evnt "timelineId"),
      ("user", memo.sessionInfo.numId)]))
  let impression := setField impression "id"
    (JVal.str (u.hash [("uuid", getField evnt "timelineId"),
      ("user", memo.sessionInfo.numId), ("order", getField evnt "impressionOrder")]))
  let impression := setField impression "userId" memo.sessionInfo.numId
  let impression := setField impression "impressionOrder"
    (u.parseInt (getField evnt "impressionOrder"))
  setField impression "impressionTime" (u.toDate (getField evnt "impressionTime"))

/-- The object literal `snippet` of the public branch, built from `impression` after its
`htmlId` has been set. -/
def mkSnippet (u : Utils) (memo : Memo) (impression : JObj) : JObj :=
  [("savingTime", JVal.date u.now),
   ("id", getField impression "htmlId"),
   ("userId", memo.sessionInfo.numId),
   ("impressionId", getField impression "id"),
   ("timelineId", getField impression "timelineId"),
   ("html", getField impression "html")]

/-- Source `parseEvents(memo, evnt)`; `evnt` is an event object.  The function updates the
accumulator in place and returns it; here it returns the updated accumulator.  The `debug`
statements are left out. -/
def parseEvents (u : Utils) (memo : Memo) (evnt : JObj) : Memo :=
  if getField evnt "type" = JVal.str "timeline" then
    { memo with timelines := memo.timelines ++ [newTimeline u memo evnt] }
  else if getField evnt "type" = JVal.str "impression" then
    let impression := baseImpression u memo evnt
    if getField impression "visibility" = JVal.str "public" then
      let impression := setField impression "htmlId"
        (JVal.str (u.hash [("html", getField impression "html")]))
      { memo with
        htmls := memo.htmls ++ [mkSnippet u memo impression]
        impressions := memo.impressions ++ [omitKeys impression ["html"]] }
    else
      { memo with impressions := memo.impressions ++ [omitKeys impression ["html"]] }
  else
    let previous := match memo.error with
      | none => []
      | some l => l
    { memo with error := some (previous ++ [u.stringify ⟨"invalid type", evnt⟩]) }

/-! ## Collaborators and promise chains -/

/-- The collections of `nconf.get('schema')` the module writes to. -/
inductive Coll
  | supporters
  | htmls
  | impressions
  | timelines
  deriving DecidableEq, Repr

/-- The `info` property of an alarm descriptor: the value `mongo.writeOne` resolved with,
a list of documents, or an object. -/
inductive AlarmInfo
  | ack
  | docs (l : List JObj)
  | obj (o : JObj)
  deriving DecidableEq, Repr

/-- A call issued to the store (`mongo`) or to the alarm sink (`alarms.reportAlarm`). -/
inductive Call
  | read (c : Coll) (filter : JObj)
  | writeOne (c : Coll) (doc : JObj)
  | writeMany (c : Coll) (docs : List JObj)
  | updateOne (c : Coll) (filter : JObj) (doc : JObj)
  | reportAlarm (caller what : String) (info : AlarmInfo)
  deriving DecidableEq, Repr

/-- The value a promise of `functionList` resolves with: the summary given to `.return`
for a grouped write, the acknowledgement of the store for `updateOne`. -/
inductive ResultItem
  | summary (kind : String) (amount : Nat)
  | ack
  deriving DecidableEq, Repr

/-- A promise of `functionList`: the call that was issued to create it and the value it
resolves with when the store acknowledges the call. -/
structure Pending where
  call : Call
  value : ResultItem
  deriving DecidableEq, Repr

/-- An HTTP request: the header bag and the parsed body, an array of event objects. -/
structure Request where
  headers : JObj
  body : List JObj
  deriving DecidableEq, Repr

/-- The collaborators: `utils.getGeoIP` (the `code` and `ip` of its result),
`utils.verifyRequestSignature`, and the answer of the store and of the alarm sink to each
call (`Except.error msg`: the promise rejects with an error of message `msg`). -/
structure World where
  getGeoIP : JVal → JVal × JVal
  verifyRequestSignature : Request → Bool
  read : Coll → JObj → Except String (List JObj)
  writeOne : Coll → JObj → Except String Unit
  writeMany : Coll → List JObj → Except String Unit
  updateOne : Coll → JObj → JObj → Except String Unit
  reportAlarm : String → String → AlarmInfo → Except String Unit

/-- A promise chain: its outcome (resolved value, or message of the rejection) and the
calls issued so far, oldest first. -/
abbrev Step (α : Type) := Except String α × List Call

/-- A chain already resolved with `a`. -/
def Step.pure {α : Type} (a : α) : Step α := (Except.ok a, [])

/-- A chain rejected by `throw new Error(msg)`. -/
def Step.throw {α : Type} (msg : String) : Step α := (Except.error msg, [])

/-- Promise `.then(f)`: `f` runs only when the chain resolved; a rejection skips it. -/
def Step.bind {α β : Type} (s : Step α) (f : α → Step β) : Step β :=
  match s.1 with
  | Except.error e => (Except.error e, s.2)
  | Except.ok a => ((f a).1, s.2 ++ (f a).2)

/-- Bluebird `.tap(f)`: like `.then(f)`, but the chain keeps the value it had. -/
def Step.tap {α β : Type} (s : Step α) (f : α → Step β) : Step α :=
  Step.bind s (fun a => Step.bind (f a) (fun _ => Step.pure a))

/-- Source `alarms.reportAlarm(descriptor)`: one call to the sink. -/
def reportAlarm (w : World) (caller what : String) (info : AlarmInfo) : Step Unit :=
  (w.reportAlarm caller what info, [Call.reportAlarm caller what info])

/-! ## `promisifyInputs` -/

/-- The accumulator `promisifyInputs` gives to `_.reduce`: empty buckets, an empty `errors`
property, no `error` property, and the session metadata. -/
def initialMemo (geoinfo : JVal) (supporter : JObj) : Memo :=
  { timelines := [], impressions := [], htmls := [], errors := [], error := none,
    sessionInfo :=
      { geoip := geoinfo, numId := getField supporter "userId",
        publicKey := getField supporter "publicKey",
        version := getField supporter "version" } }

/-- Source `promisifyInputs(body, geoinfo, supporter)`.  The result is `functionList`, the
promises created (every call in it has been issued when the function returns), or the
exception thrown synchronously by `reportError`.  The `debug` statements at the end of the
function only read the buckets and the supporter; they are left out. -/
def promisifyInputs (u : Utils) (body : List JObj) (geoinfo : JVal) (supporter : JObj) :
    Except String (List Pending) :=
  let processed := body.foldl (parseEvents u) (initialMemo geoinfo supporter)
  match (if hasErrorMemo processed then reportError "body parsing" processed.error
         else Except.ok ()) with
  | Except.error e => Except.error e
  | Except.ok _ =>
    let functionList : List Pending := []
    let functionList :=
      if processed.htmls.length ≠ 0 then
        functionList ++ [⟨Call.writeMany Coll.htmls processed.htmls,
          ResultItem.summary "htmls" processed.htmls.length⟩]
      else functionList
    let functionList :=
      if processed.impressions.length ≠ 0 then
        functionList ++ [⟨Call.writeMany Coll.impressions processed.impressions,
          ResultItem.summary "impressions" processed.impressions.length⟩]
      else functionList
    let functionList :=
      if processed.timelines.length ≠ 0 then
        functionList ++ [⟨Call.writeMany Coll.timelines processed.timelines,
          ResultItem.summary "timelines" processed.timelines.length⟩]
      else functionList
    Except.ok (functionList ++
      [⟨Call.updateOne Coll.supporters
          [("publicKey", getField supporter "publicKey"),
           ("userId", u.parseInt (getField supporter "userId"))]
          (setField supporter "lastActivity" (JVal.date u.now)),
        ResultItem.ack⟩])

/-! ## `processEvents` -/

/-- The header manifest of `processEvents`. -/
def requiredHeaders : List (String × String) :=
  [("content-length", "length"),
   ("x-fbtrex-build", "build"),
   ("x-fbtrex-version", "version"),
   ("x-fbtrex-userid", "supporterId"),
   ("x-fbtrex-publickey", "publickey"),
   ("x-fbtrex-signature", "signature")]

/-- The geographic code computed at the top of `processEvents`. -/
def geoInfo (w : World) (req : Request) : JVal :=
  let forwarded := getField req.headers "x-forwarded-for"
  let ipaddr := if truthy forwarded then forwarded else JVal.str "127.0.0.1"
  let geoip := w.getGeoIP ipaddr
  if truthy geoip.1 then geoip.1
  else if geoip.2 ≠ JVal.str "127.0.0.1" then JVal.str "redacted"
  else geoip.2

/-- The object `content` of the bootstrap branch. -/
def tofuContent (u : Utils) (headers : JObj) : JObj :=
  [("userId", u.parseInt (getField headers "supporterId")),
   ("publicKey", getField headers "publickey"),
   ("userSecret", JVal.str (u.hash
      [("publicKey", getField headers "publicKey"),
       ("userId", getField headers "supporterId"),
       ("when", JVal.str u.now)])),
   ("keyTime", JVal.date u.now),
   ("lastActivity", JVal.date u.now),
   ("tofu", JVal.bool true)]

/-- The call `mongo.read(supporters, ...)` that starts the chain of `processEvents`. -/
def readSupporters (u : Utils) (w : World) (headers : JObj) : Step (List JObj) :=
  let filter : JObj :=
    [("userId", u.parseInt (getField headers "supporterId")),
     ("publicKey", getField headers "publickey")]
  (w.read Coll.supporters filter, [Call.read Coll.supporters filter])

/-- The first `.then` of the chain: bootstrap when the lookup found nobody. -/
def bootstrap (u : Utils) (w : World) (headers : JObj) (supporterL : List JObj) :
    Step (List JObj) :=
  if supporterL.length = 0 then
    let content := tofuContent u headers
    Step.bind
      (Step.tap
        ((w.writeOne Coll.supporters content, [Call.writeOne Coll.supporters content]) :
          Step Unit)
        (fun _ => reportAlarm w "events" "TOFU" AlarmInfo.ack))
      (fun _ => Step.pure [content])
  else Step.pure supporterL

/-- The `.tap` of the chain: an alarm when the lookup found more than one supporter. -/
def flagDuplicates (w : World) (supporterL : List JObj) : Step Unit :=
  if supporterL.length > 1 then
    reportAlarm w "events" "duplicated user" (AlarmInfo.docs supporterL)
  else Step.pure ()

/-- The identity resolution of `processEvents`: `mongo.read`, the bootstrap, the duplicate
check and `.then(_.first)` (`none` is the `undefined` that `_.first` gives on an empty list). -/
def resolveSupporter (u : Utils) (w : World) (headers : JObj) : Step (Option JObj) :=
  Step.bind
    (Step.tap
      (Step.bind (readSupporters u w headers) (bootstrap u w headers))
      (flagDuplicates w))
    (fun supporterL => Step.pure supporterL.head?)

/-- The `.then(function(supporter) ...)` that checks the signature.  Reading
`supporter.publicKey` on `undefined` raises a `TypeError`. -/
def checkSignature (w : World) (req : Request) (headers : JObj) :
    Option JObj → Step JObj
  | none => Step.throw "Cannot read property 'publicKey' of undefined"
  | some supporter =>
    if !([getField headers "signature", getField supporter "publicKey"].all
          (fun v => decide (size v ≠ 0))) then
      Step.bind (reportAlarm w "events" "Validation fail" (AlarmInfo.obj headers))
        (fun _ => Step.throw "Signature can't be verify")
    else if !(w.verifyRequestSignature req) then
      Step.bind
        (reportAlarm w "events" "Signature verification failure" (AlarmInfo.obj headers))
        (fun _ => Step.throw "Signature does not match request body")
    else Step.pure (setField supporter "version" (getField headers "version"))

/-- The answer of the collaborators to a call. -/
def World.answer (w : World) : Call → Except String Unit
  | Call.read c f =>
    match w.read c f with
    | Except.ok _ => Except.ok ()
    | Except.error e => Except.error e
  | Call.writeOne c d => w.writeOne c d
  | Call.writeMany c ds => w.writeMany c ds
  | Call.updateOne c f d => w.updateOne c f d
  | Call.reportAlarm c k i => w.reportAlarm c k i

/-- The outcome of `.all()` on promises already created: the values they resolve with when
every call is acknowledged, the message of a rejected one otherwise (the first in the order
of the list). -/
def settleAll (w : World) : List Pending → Except String (List ResultItem)
  | [] => Except.ok []
  | p :: ps =>
    match w.answer p.call with
    | Except.error e => Except.error e
    | Except.ok _ =>
      match settleAll w ps with
      | Except.error e => Except.error e
      | Except.ok vs => Except.ok (p.value :: vs)

/-- The `.then(function(supporter) ...)` that calls `promisifyInputs`, followed by `.all()`:
all the calls of `functionList` are issued, then their outcomes are gathered. -/
def persist (u : Utils) (w : World) (req : Request) (geoinfo : JVal) (supporter : JObj) :
    Step (List ResultItem) :=
  match promisifyInputs u req.body geoinfo supporter with
  | Except.error e => Step.throw e
  | Except.ok functionList => (settleAll w functionList, functionList.map (fun p => p.call))

/-- The `info` property of the response. -/
inductive Info
  | results (l : List ResultItem)
  | message (msg : String)
  deriving DecidableEq, Repr

/-- The `json` property of the value `processEvents` resolves with. -/
structure Response where
  status : String
  info : Info
  deriving DecidableEq, Repr

/-- The promise chain of `processEvents`, from `mongo.read` to `.all()`. -/
def pipeline (u : Utils) (w : World) (req : Request) (headers : JObj) (geoinfo : JVal) :
    Step (List ResultItem) :=
  Step.bind
    (Step.bind (resolveSupporter u w headers) (checkSignature w req headers))
    (persist u w req geoinfo)

/-- The last `.then` and the `.catch` of the chain: the response for each outcome. -/
def respond (chain : Step (List ResultItem)) : Response :=
  match chain.1 with
  | Except.ok results => { status := "OK", info := Info.results results }
  | Except.error msg => { status := "error", info := Info.message msg }

/-- Source `processEvents(req)`.  The first component is the response the returned promise
resolves with, or `Except.error` when `processEvents` itself throws before it builds the
chain; the second is the list of the calls issued, oldest first. -/
def processEvents (u : Utils) (w : World) (req : Request) :
    Except String Response × List Call :=
  let geoinfo := geoInfo w req
  let headers := processHeaders req.headers requiredHeaders
  match (if hasError headers then
           reportError "header parsing, missing" (getField headers "error")
         else Except.ok ()) with
  | Except.error e => (Except.error e, [])
  | Except.ok _ =>
    let chain := pipeline u w req headers geoinfo
    (Except.ok (respond chain), chain.2)

/-! ## Vocabulary of the properties -/

/-- The event has type `timeline`. -/
def isTimeline (evnt : JObj) : Bool :=
  decide (getField evnt "type" = JVal.str "timeline")

/-- The event has type `impression`. -/
def isImpression (evnt : JObj) : Bool :=
  decide (getField evnt "type" = JVal.str "impression")

/-- The event is an impression whose visibility is `public`. -/
def isPublicImpression (evnt : JObj) : Bool :=
  isImpression evnt && decide (getField evnt "visibility" = JVal.str "public")

/-- The entries of the `error` property of the accumulator (none while it is undefined). -/
def errorEntries (memo : Memo) : List String :=
  match memo.error with
  | none => []
  | some l => l

/-! ## Sample inputs -/

/-- A helper library for the examples: the hash reads off the identifying field of its
argument, `parseInt` reads a string of decimal digits, the clock is fixed. -/
def sampleUtils : Utils :=
  { hash := fun o =>
      match getField o "html", getField o "uuid", getField o "publicKey" with
      | JVal.str s, _, _ => s
      | _, JVal.str s, _ => s
      | _, _, JVal.str s => s
      | _, _, _ => "undefined"
    parseInt := fun v =>
      match v with
      | JVal.str s =>
        if s.data ≠ [] ∧ s.data.all Char.isDigit = true then
          JVal.num (Int.ofNat (s.data.foldl (fun n c => 10 * n + (c.toNat - 48)) 0))
        else JVal.nan
      | JVal.num n => JVal.num n
      | _ => JVal.nan
    toDate := fun v =>
      match v with
      | JVal.str s => JVal.date s
      | _ => JVal.nan
    now := "2024-01-02T00:00:00.000Z"
    stringify := fun entry =>
      match getField entry.event "type" with
      | JVal.str s => entry.kind ++ ": " ++ s
      | _ => entry.kind }

/-- The accumulator `promisifyInputs` starts from, for user 42. -/
def sampleMemo : Memo :=
  { timelines := [], impressions := [], htmls := [], errors := [], error := none,
    sessionInfo :=
      { geoip := JVal.str "IT", numId := JVal.num 42, publicKey := JVal.str "PK",
        version := JVal.str "1.0" } }

/-- A timeline event on the feed root. -/
def sampleTimeline : JObj :=
  [("type", JVal.str "timeline"), ("id", JVal.str "abc"),
   ("startTime", JVal.str "2024-01-01T00:00:00Z"),
   ("location", JVal.str "https://www.facebook.com/")]

/-- A public impression with html. -/
def samplePublic : JObj :=
  [("type", JVal.str "impression"), ("timelineId", JVal.str "abc"),
   ("visibility", JVal.str "public"), ("html", JVal.str "<div>post</div>"),
   ("impressionOrder", JVal.num 1), ("impressionTime", JVal.str "2024-01-01T00:00:01Z")]

/-- A non-public impression that carries html all the same. -/
def samplePrivate : JObj :=
  [("type", JVal.str "impression"), ("timelineId", JVal.str "abc"),
   ("visibility", JVal.str "friends"), ("html", JVal.str "<div>private</div>"),
   ("impressionOrder", JVal.num 2), ("impressionTime", JVal.str "2024-01-01T00:00:02Z")]

/-- An event whose type is neither `timeline` nor `impression`. -/
def sampleUnknown : JObj :=
  [("type", JVal.str "refresh"), ("id", JVal.str "xyz")]

/-- The sample helper library at a later instant, with another date parser. -/
def laterUtils : Utils :=
  { sampleUtils with
    now := "2025-06-30T12:00:00.000Z"
    toDate := fun _ => JVal.date "2025-06-30T12:00:00.000Z" }

/-- An accumulator for user 42 that already holds records and another location. -/
def busyMemo : Memo :=
  { timelines := [[("id", JVal.str "old")]], impressions := [], htmls := [],
    errors := [], error := some ["earlier"],
    sessionInfo :=
      { geoip := JVal.str "redacted", numId := JVal.num 42, publicKey := JVal.str "PK",
        version := JVal.str "2.0" } }

/-- The sample timeline event submitted again, later and from another page. -/
def sampleTimelineAgain : JObj :=
  [("type", JVal.str "timeline"), ("id", JVal.str "abc"),
   ("startTime", JVal.str "2024-03-03T03:03:03Z"),
   ("location", JVal.str "https://www.facebook.com/groups"), ("tagId", JVal.str "t1")]

/-- The sample batch: a timeline, a public impression and a non-public one. -/
def sampleBody : List JObj := [sampleTimeline, samplePublic, samplePrivate]

/-- A stored identity for user 42. -/
def sampleSupporter : JObj :=
  [("userId", JVal.num 42), ("publicKey", JVal.str "PK"), ("version", JVal.str "1.0"),
   ("lastActivity", JVal.date "2023-12-31T00:00:00.000Z")]

/-- A header bag as the transport delivers it (every value is a string), as an object. -/
def headerBag (bag : List (String × String)) : JObj :=
  bag.map (fun p => (p.1, JVal.str p.2))

/-- A manifest whose only header name is the empty string. -/
def emptyNameManifest : List (String × String) := [("", "x")]

/-- A manifest that sends two headers to the same destination field. -/
def sharedManifest : List (String × String) := [("a", "x"), ("b", "x")]

/-- A bag that holds both headers of `sharedManifest`. -/
def sharedBag : List (String × String) := [("a", "1"), ("b", "2")]

/-- The six required headers of a submission by user 42 with public key `PK`. -/
def fullBag : List (String × String) :=
  [("content-length", "120"), ("x-fbtrex-build", "b1"), ("x-fbtrex-version", "1.1"),
   ("x-fbtrex-userid", "42"), ("x-fbtrex-publickey", "PK"), ("x-fbtrex-signature", "SIG")]

/-- The same submission without `x-fbtrex-signature`. -/
def unsignedBag : List (String × String) :=
  [("content-length", "120"), ("x-fbtrex-build", "b1"), ("x-fbtrex-version", "1.1"),
   ("x-fbtrex-userid", "42"), ("x-fbtrex-publickey", "PK")]

/-- The call writes event records or updates the identity: `writeMany` or `updateOne`. -/
def isEventWrite : Call → Bool
  | Call.writeMany _ _ => true
  | Call.updateOne _ _ _ => true
  | _ => false

/-- The call is a `writeOne`. -/
def isWriteOne : Call → Bool
  | Call.writeOne _ _ => true
  | _ => false

/-- The call is a `read`, a `writeOne`, a `writeMany` or an `updateOne`: a call to the
store. -/
def isStoreCall : Call → Bool
  | Call.reportAlarm _ _ _ => false
  | _ => true

/-- The call is an alarm with caller `events` and what `TOFU`. -/
def isTofuAlarm : Call → Bool
  | Call.reportAlarm caller what _ => decide (caller = "events") && decide (what = "TOFU")
  | _ => false

/-- A world in which the identity of user 42 is known, the signature is valid and every
call is acknowledged. -/
def knownWorld : World :=
  { getGeoIP := fun _ => (JVal.str "IT", JVal.str "198.51.100.7")
    verifyRequestSignature := fun _ => true
    read := fun _ _ => Except.ok [sampleSupporter]
    writeOne := fun _ _ => Except.ok ()
    writeMany := fun _ _ => Except.ok ()
    updateOne := fun _ _ _ => Except.ok ()
    reportAlarm := fun _ _ _ => Except.ok () }

/-- A world like `knownWorld` whose identity store is empty. -/
def emptyWorld : World :=
  { knownWorld with read := fun _ _ => Except.ok [] }

/-- A world whose identity store is empty and rejects `writeOne`. -/
def rejectingWorld : World :=
  { emptyWorld with writeOne := fun _ _ => Except.error "store unavailable" }

/-- A world like `knownWorld` in which the signature does not match the body. -/
def tamperedWorld : World :=
  { knownWorld with verifyRequestSignature := fun _ => false }

/-- A signed submission of the sample batch. -/
def fullRequest : Request :=
  { headers := headerBag fullBag, body := sampleBody }

/-- The same submission without the header `x-fbtrex-signature`. -/
def unsignedRequest : Request :=
  { headers := headerBag unsignedBag, body := sampleBody }

/-- A signed submission of one timeline event and one event of an unknown type. -/
def mixedRequest : Request :=
  { headers := headerBag fullBag, body := [sampleTimeline, sampleUnknown] }

/-- The submission of `fullRequest` under another public key. -/
def otherKeyRequest : Request :=
  { headers := headerBag
      [("content-length", "120"), ("x-fbtrex-build", "b1"), ("x-fbtrex-version", "1.1"),
       ("x-fbtrex-userid", "42"), ("x-fbtrex-publickey", "PK2"),
       ("x-fbtrex-signature", "SIG")],
    body := sampleBody }

/-- A world whose identity store rejects the lookup. -/
def downWorld : World :=
  { knownWorld with read := fun _ _ => Except.error "store unavailable" }

/-- A submission that carries the six required headers, with an empty signature. -/
def blankSignatureRequest : Request :=
  { headers := headerBag
      [("content-length", "120"), ("x-fbtrex-build", "b1"), ("x-fbtrex-version", "1.1"),
       ("x-fbtrex-userid", "42"), ("x-fbtrex-publickey", "PK"),
       ("x-fbtrex-signature", "")],
    body := sampleBody }

/-- A world whose identity store is empty and whose alarm sink rejects every alarm. -/
def deafWorld : World :=
  { emptyWorld with reportAlarm := fun _ _ _ => Except.error "sink unavailable" }

/-! ## Objects: reading after writing -/

theorem lookup_setField_same (o : JObj) (k : String) (v : JVal) :
    (setField o k v).lookup k = some v := by
  induction o with
  | nil => simp [setField, List.lookup]
  | cons p rest ih =>
    obtain ⟨k0, v0⟩ := p
    by_cases h : k0 = k
    · simp [setField, h, List.lookup]
    · have h2 : (k == k0) = false := by simpa using fun e => h e.symm
      simp [setField, h, List.lookup, h2, ih]

theorem lookup_setField_ne (o : JObj) (k k2 : String) (v : JVal) (hne : k ≠ k2) :
    (setField o k v).lookup k2 = o.lookup k2 := by
  induction o with
  | nil =>
    have h2 : (k2 == k) = false := by simpa using fun e => hne e.symm
    simp [setField, List.lookup, h2]
  | cons p rest ih =>
    obtain ⟨k0, v0⟩ := p
    by_cases h : k0 = k
    · subst h
      have h2 : (k2 == k0) = false := by simpa using fun e => hne e.symm
      simp [setField, List.lookup, h2]
    · by_cases h3 : k2 = k0
      · subst h3
        simp [setField, h, List.lookup]
      · have h4 : (k2 == k0) = false := by simpa using h3
        simp [setField, h, List.lookup, h4, ih]

theorem getField_setField_same (o : JObj) (k : String) (v : JVal) :
    getField (setField o k v) k = v := by
  simp [getField, lookup_setField_same]

theorem getField_setField_ne (o : JObj) (k k2 : String) (v : JVal) (hne : k ≠ k2) :
    getField (setField o k v) k2 = getField o k2 := by
  simp [getField, lookup_setField_ne o k k2 v hne]

theorem lookup_omitKeys_mem (o : JObj) (keys : List String) (k : String) (hk : k ∈ keys) :
    (omitKeys o keys).lookup k = none := by
  induction o with
  | nil => simp [omitKeys, List.lookup]
  | cons p rest ih =>
    obtain ⟨k0, v0⟩ := p
    by_cases h : k0 ∈ keys
    · have : omitKeys ((k0, v0) :: rest) keys = omitKeys rest keys := by
        simp [omitKeys, List.filter, h]
      rw [this]; exact ih
    · have h1 : omitKeys ((k0, v0) :: rest) keys = (k0, v0) :: omitKeys rest keys := by
        simp [omitKeys, List.filter, h]
      have h2 : (k == k0) = false := by
        simpa using fun e : k = k0 => h (e ▸ hk)
      rw [h1]
      simp [List.lookup, h2, ih]

theorem lookup_omitKeys_not_mem (o : JObj) (keys : List String) (k : String)
    (hk : k ∉ keys) : (omitKeys o keys).lookup k = o.lookup k := by
  induction o with
  | nil => simp [omitKeys, List.lookup]
  | cons p rest ih =>
    obtain ⟨k0, v0⟩ := p
    by_cases h : k0 ∈ keys
    · have h1 : omitKeys ((k0, v0) :: rest) keys = omitKeys rest keys := by
        simp [omitKeys, List.filter, h]
      have h2 : (k == k0) = false := by
        simpa using fun e : k = k0 => hk (e ▸ h)
      rw [h1, ih]
      simp [List.lookup, h2]
    · have h1 : omitKeys ((k0, v0) :: rest) keys = (k0, v0) :: omitKeys rest keys := by
        simp [omitKeys, List.filter, h]
      rw [h1]
      by_cases h3 : k = k0
      · subst h3; simp [List.lookup]
      · have h4 : (k == k0) = false := by simpa using h3
        simp [List.lookup, h4, ih]

theorem getField_omitKeys_not_mem (o : JObj) (keys : List String) (k : String)
    (hk : k ∉ keys) : getField (omitKeys o keys) k = getField o k := by
  simp [getField, lookup_omitKeys_not_mem o keys k hk]

/-- What `_.pick(evnt, ['visibility', 'html'])` holds under a property name. -/
theorem lookup_pick_vis_html (evnt : JObj) (k : String) :
    (pick evnt ["visibility", "html"]).lookup k =
      if k = "visibility" then evnt.lookup "visibility"
      else if k = "html" then evnt.lookup "html" else none := by
  by_cases h1 : k = "visibility"
  · subst h1
    cases hv : evnt.lookup "visibility" <;> cases hh : evnt.lookup "html" <;>
      simp [pick, List.filterMap, hv, hh, List.lookup]
  · by_cases h2 : k = "html"
    · subst h2
      cases hv : evnt.lookup "visibility" <;> cases hh : evnt.lookup "html" <;>
        simp [pick, List.filterMap, hv, hh, List.lookup]
    · have e1 : (k == "visibility") = false := by simpa using h1
      have e2 : (k == "html") = false := by simpa using h2
      cases hv : evnt.lookup "visibility" <;> cases hh : evnt.lookup "html" <;>
        simp [pick, List.filterMap, hv, hh, List.lookup, h1, h2, e1, e2]

/-! ## One step of `parseEvents` -/

theorem getField_baseImpression_visibility (u : Utils) (memo : Memo) (evnt : JObj) :
    getField (baseImpression u memo evnt) "visibility" = getField evnt "visibility" := by
  simp [baseImpression, getField, lookup_setField_ne, lookup_pick_vis_html]

theorem getField_baseImpression_html (u : Utils) (memo : Memo) (evnt : JObj) :
    getField (baseImpression u memo evnt) "html" = getField evnt "html" := by
  simp [baseImpression, getField, lookup_setField_ne, lookup_pick_vis_html]

theorem getField_baseImpression_id (u : Utils) (memo : Memo) (evnt : JObj) :
    getField (baseImpression u memo evnt) "id" =
      JVal.str (u.hash [("uuid", getField evnt "timelineId"),
        ("user", memo.sessionInfo.numId), ("order", getField evnt "impressionOrder")]) := by
  simp [baseImpression, getField, lookup_setField_ne, lookup_setField_same]

theorem getField_baseImpression_timelineId (u : Utils) (memo : Memo) (evnt : JObj) :
    getField (baseImpression u memo evnt) "timelineId" =
      JVal.str (u.hash [("uuid", getField evnt "timelineId"),
        ("user", memo.sessionInfo.numId)]) := by
  simp [baseImpression, getField, lookup_setField_ne, lookup_setField_same]

theorem lookup_baseImpression_htmlId (u : Utils) (memo : Memo) (evnt : JObj) :
    (baseImpression u memo evnt).lookup "htmlId" = none := by
  simp [baseImpression, lookup_setField_ne, lookup_pick_vis_html]

theorem getField_newTimeline_id (u : Utils) (memo : Memo) (evnt : JObj) :
    getField (newTimeline u memo evnt) "id" =
      JVal.str (u.hash [("uuid", getField evnt "id"), ("user", memo.sessionInfo.numId)]) := by
  unfold newTimeline
  simp only []
  split <;> split <;>
    simp [getField, lookup_setField_ne, lookup_setField_same]

theorem lookup_newTimeline_html (u : Utils) (memo : Memo) (evnt : JObj) :
    (newTimeline u memo evnt).lookup "html" = none := by
  unfold newTimeline
  simp only []
  split <;> split <;>
    simp [lookup_setField_ne, setField, List.lookup]

theorem parseEvents_timeline (u : Utils) (memo : Memo) (evnt : JObj)
    (htype : getField evnt "type" = JVal.str "timeline") :
    parseEvents u memo evnt =
      { memo with timelines := memo.timelines ++ [newTimeline u memo evnt] } := by
  simp [parseEvents, htype]

theorem parseEvents_public (u : Utils) (memo : Memo) (evnt : JObj)
    (htype : getField evnt "type" = JVal.str "impression")
    (hvis : getField evnt "visibility" = JVal.str "public") :
    parseEvents u memo evnt =
      { memo with
        htmls := memo.htmls ++ [mkSnippet u memo
          (setField (baseImpression u memo evnt) "htmlId"
            (JVal.str (u.hash [("html", getField evnt "html")])))]
        impressions := memo.impressions ++ [omitKeys
          (setField (baseImpression u memo evnt) "htmlId"
            (JVal.str (u.hash [("html", getField evnt "html")]))) ["html"]] } := by
  simp [parseEvents, htype, getField_baseImpression_visibility, hvis,
    getField_baseImpression_html]

theorem parseEvents_private (u : Utils) (memo : Memo) (evnt : JObj)
    (htype : getField evnt "type" = JVal.str "impression")
    (hvis : getField evnt "visibility" ≠ JVal.str "public") :
    parseEvents u memo evnt =
      { memo with
        impressions := memo.impressions ++ [omitKeys (baseImpression u memo evnt) ["html"]] } := by
  simp [parseEvents, htype, getField_baseImpression_visibility, hvis]

theorem parseEvents_invalid (u : Utils) (memo : Memo) (evnt : JObj)
    (h1 : getField evnt "type" ≠ JVal.str "timeline")
    (h2 : getField evnt "type" ≠ JVal.str "impression") :
    parseEvents u memo evnt =
      { memo with error := some ((match memo.error with
          | none => []
          | some l => l) ++ [u.stringify ⟨"invalid type", evnt⟩]) } := by
  simp [parseEvents, h1, h2]

/-! ## Folding `parseEvents` over a batch -/

theorem foldl_parseEvents_snoc (u : Utils) (seed : Memo) (batch : List JObj) (e : JObj) :
    (batch ++ [e]).foldl (parseEvents u) seed =
      parseEvents u (batch.foldl (parseEvents u) seed) e := by
  simp [List.foldl_append]

/-- The four ways one step changes the accumulator. -/
theorem parseEvents_cases (u : Utils) (memo : Memo) (e : JObj) :
    (isTimeline e = true ∧ parseEvents u memo e =
        { memo with timelines := memo.timelines ++ [newTimeline u memo e] }) ∨
    (isTimeline e = false ∧ isPublicImpression e = true ∧ parseEvents u memo e =
        { memo with
          htmls := memo.htmls ++ [mkSnippet u memo
            (setField (baseImpression u memo e) "htmlId"
              (JVal.str (u.hash [("html", getField e "html")])))]
          impressions := memo.impressions ++ [omitKeys
            (setField (baseImpression u memo e) "htmlId"
              (JVal.str (u.hash [("html", getField e "html")]))) ["html"]] }) ∨
    (isTimeline e = false ∧ isImpression e = true ∧ isPublicImpression e = false ∧
      parseEvents u memo e =
        { memo with
          impressions := memo.impressions ++ [omitKeys (baseImpression u memo e) ["html"]] }) ∨
    (isTimeline e = false ∧ isImpression e = false ∧ isPublicImpression e = false ∧
      parseEvents u memo e =
        { memo with error := some (errorEntries memo ++ [u.stringify ⟨"invalid type", e⟩]) }) := by
  by_cases h1 : getField e "type" = JVal.str "timeline"
  · left
    exact ⟨by simp [isTimeline, h1], parseEvents_timeline u memo e h1⟩
  · right
    by_cases h2 : getField e "type" = JVal.str "impression"
    · by_cases h3 : getField e "visibility" = JVal.str "public"
      · left
        exact ⟨by simp [isTimeline, h1], by simp [isPublicImpression, isImpression, h2, h3],
          parseEvents_public u memo e h2 h3⟩
      · right; left
        exact ⟨by simp [isTimeline, h1], by simp [isImpression, h2],
          by simp [isPublicImpression, h3], parseEvents_private u memo e h2 h3⟩
    · right; right
      refine ⟨by simp [isTimeline, h1], by simp [isImpression, h2],
          by simp [isPublicImpression, isImpression, h2], ?_⟩
      rw [parseEvents_invalid u memo e h1 h2]
      rfl

theorem getField_mkSnippet_html (u : Utils) (memo : Memo) (impression : JObj) :
    getField (mkSnippet u memo impression) "html" = getField impression "html" := by
  simp [mkSnippet, getField, List.lookup]

theorem lookup_record_html (o : JObj) : (omitKeys o ["html"]).lookup "html" = none :=
  lookup_omitKeys_mem o ["html"] "html" (by simp)

theorem getField_public_html (u : Utils) (memo : Memo) (e : JObj) :
    getField (setField (baseImpression u memo e) "htmlId"
      (JVal.str (u.hash [("html", getField e "html")]))) "html" = getField e "html" := by
  rw [getField_setField_ne _ _ _ _ (by decide), getField_baseImpression_html]

theorem foldl_htmls_origin (u : Utils) (batch : List JObj) (seed : Memo) :
    ∀ s ∈ (batch.foldl (parseEvents u) seed).htmls, s ∈ seed.htmls ∨
      ∃ e ∈ batch, isPublicImpression e = true ∧ getField s "html" = getField e "html" := by
  induction batch using List.reverseRecOn with
  | nil => intro s hs; exact Or.inl hs
  | append_singleton init e ih =>
    intro s hs
    rw [foldl_parseEvents_snoc] at hs
    have lift : (s ∈ seed.htmls ∨ ∃ e0 ∈ init, isPublicImpression e0 = true ∧
        getField s "html" = getField e0 "html") →
        s ∈ seed.htmls ∨ ∃ e0 ∈ init ++ [e], isPublicImpression e0 = true ∧
        getField s "html" = getField e0 "html" := by
      rintro (h | ⟨e0, he0, hp⟩)
      · exact Or.inl h
      · exact Or.inr ⟨e0, by simp [he0], hp⟩
    rcases parseEvents_cases u (init.foldl (parseEvents u) seed) e with
      ⟨_, h⟩ | ⟨_, hpub, h⟩ | ⟨_, _, _, h⟩ | ⟨_, _, _, h⟩
    · rw [h] at hs; exact lift (ih s hs)
    · rw [h] at hs
      simp only [List.mem_append, List.mem_singleton] at hs
      rcases hs with hs | hs
      · exact lift (ih s hs)
      · right
        refine ⟨e, by simp, hpub, ?_⟩
        rw [hs, getField_mkSnippet_html, getField_public_html]
    · rw [h] at hs; exact lift (ih s hs)
    · rw [h] at hs; exact lift (ih s hs)

theorem foldl_htmls_length (u : Utils) (batch : List JObj) (seed : Memo) :
    (batch.foldl (parseEvents u) seed).htmls.length =
      seed.htmls.length + (batch.filter isPublicImpression).length := by
  induction batch using List.reverseRecOn with
  | nil => simp
  | append_singleton init e ih =>
    rw [foldl_parseEvents_snoc]
    rcases parseEvents_cases u (init.foldl (parseEvents u) seed) e with
      ⟨ht, h⟩ | ⟨_, hpub, h⟩ | ⟨_, _, hpub, h⟩ | ⟨_, _, hpub, h⟩
    · have hpub : isPublicImpression e = false := by
        simp only [isTimeline, decide_eq_true_eq] at ht
        simp [isPublicImpression, isImpression, ht]
      rw [h]; simp [List.filter_append, List.filter, hpub, ih]
    · rw [h]; simp [List.filter_append, List.filter, hpub, ih]; omega
    · rw [h]; simp [List.filter_append, List.filter, hpub, ih]
    · rw [h]; simp [List.filter_append, List.filter, hpub, ih]

theorem foldl_impressions_clean (u : Utils) (batch : List JObj) (seed : Memo) :
    ∀ r ∈ (batch.foldl (parseEvents u) seed).impressions, r ∈ seed.impressions ∨
      (r.lookup "html" = none ∧
        (r.lookup "htmlId" ≠ none → ∃ e ∈ batch, isPublicImpression e = true ∧
          getField r "htmlId" = JVal.str (u.hash [("html", getField e "html")]))) := by
  induction batch using List.reverseRecOn with
  | nil => intro r hr; exact Or.inl hr
  | append_singleton init e ih =>
    intro r hr
    rw [foldl_parseEvents_snoc] at hr
    have lift : (r ∈ seed.impressions ∨ (r.lookup "html" = none ∧
        (r.lookup "htmlId" ≠ none → ∃ e0 ∈ init, isPublicImpression e0 = true ∧
          getField r "htmlId" = JVal.str (u.hash [("html", getField e0 "html")])))) →
        r ∈ seed.impressions ∨ (r.lookup "html" = none ∧
        (r.lookup "htmlId" ≠ none → ∃ e0 ∈ init ++ [e], isPublicImpression e0 = true ∧
          getField r "htmlId" = JVal.str (u.hash [("html", getField e0 "html")]))) := by
      rintro (h | ⟨h1, h2⟩)
      · exact Or.inl h
      · refine Or.inr ⟨h1, fun hne => ?_⟩
        obtain ⟨e0, he0, hp⟩ := h2 hne
        exact ⟨e0, by simp [he0], hp⟩
    rcases parseEvents_cases u (init.foldl (parseEvents u) seed) e with
      ⟨_, h⟩ | ⟨_, hpub, h⟩ | ⟨_, _, _, h⟩ | ⟨_, _, _, h⟩
    · rw [h] at hr; exact lift (ih r hr)
    · rw [h] at hr
      simp only [List.mem_append, List.mem_singleton] at hr
      rcases hr with hr | hr
      · exact lift (ih r hr)
      · right
        refine ⟨by rw [hr]; exact lookup_record_html _, fun _ => ⟨e, by simp, hpub, ?_⟩⟩
        rw [hr, getField_omitKeys_not_mem _ _ _ (by decide), getField_setField_same]
    · rw [h] at hr
      simp only [List.mem_append, List.mem_singleton] at hr
      rcases hr with hr | hr
      · exact lift (ih r hr)
      · right
        refine ⟨by rw [hr]; exact lookup_record_html _, fun hne => absurd ?_ hne⟩
        rw [hr, lookup_omitKeys_not_mem _ _ _ (by decide), lookup_baseImpression_htmlId]
    · rw [h] at hr; exact lift (ih r hr)

theorem foldl_timelines_clean (u : Utils) (batch : List JObj) (seed : Memo) :
    ∀ t ∈ (batch.foldl (parseEvents u) seed).timelines,
      t ∈ seed.timelines ∨ t.lookup "html" = none := by
  induction batch using List.reverseRecOn with
  | nil => intro t ht; exact Or.inl ht
  | append_singleton init e ih =>
    intro t ht
    rw [foldl_parseEvents_snoc] at ht
    rcases parseEvents_cases u (init.foldl (parseEvents u) seed) e with
      ⟨_, h⟩ | ⟨_, _, h⟩ | ⟨_, _, _, h⟩ | ⟨_, _, _, h⟩
    · rw [h] at ht
      simp only [List.mem_append, List.mem_singleton] at ht
      rcases ht with ht | ht
      · exact ih t ht
      · right; rw [ht]; exact lookup_newTimeline_html _ _ _
    · rw [h] at ht; exact ih t ht
    · rw [h] at ht; exact ih t ht
    · rw [h] at ht; exact ih t ht

theorem foldl_error_origin (u : Utils) (batch : List JObj) (seed : Memo) :
    ∀ s ∈ errorEntries (batch.foldl (parseEvents u) seed), s ∈ errorEntries seed ∨
      ∃ e ∈ batch, isTimeline e = false ∧ isImpression e = false ∧
        s = u.stringify ⟨"invalid type", e⟩ := by
  induction batch using List.reverseRecOn with
  | nil => intro s hs; exact Or.inl hs
  | append_singleton init e ih =>
    intro s hs
    rw [foldl_parseEvents_snoc] at hs
    have lift : (s ∈ errorEntries seed ∨ ∃ e0 ∈ init, isTimeline e0 = false ∧
        isImpression e0 = false ∧ s = u.stringify ⟨"invalid type", e0⟩) →
        s ∈ errorEntries seed ∨ ∃ e0 ∈ init ++ [e], isTimeline e0 = false ∧
        isImpression e0 = false ∧ s = u.stringify ⟨"invalid type", e0⟩ := by
      rintro (h | ⟨e0, he0, hp⟩)
      · exact Or.inl h
      · exact Or.inr ⟨e0, by simp [he0], hp⟩
    rcases parseEvents_cases u (init.foldl (parseEvents u) seed) e with
      ⟨_, h⟩ | ⟨_, _, h⟩ | ⟨_, _, _, h⟩ | ⟨ht, hi, _, h⟩
    · rw [h] at hs; exact lift (ih s hs)
    · rw [h] at hs; exact lift (ih s hs)
    · rw [h] at hs; exact lift (ih s hs)
    · rw [h] at hs
      simp only [errorEntries, List.mem_append, List.mem_singleton] at hs
      rcases hs with hs | hs
      · exact lift (ih s hs)
      · exact Or.inr ⟨e, by simp, ht, hi, hs⟩

theorem foldl_error_none (u : Utils) (batch : List JObj) (seed : Memo)
    (hseed : seed.error = none)
    (hvalid : ∀ e ∈ batch, isTimeline e = true ∨ isImpression e = true) :
    (batch.foldl (parseEvents u) seed).error = none := by
  induction batch using List.reverseRecOn with
  | nil => simpa using hseed
  | append_singleton init e ih =>
    have ih2 := ih (fun e0 he0 => hvalid e0 (by simp [he0]))
    rw [foldl_parseEvents_snoc]
    rcases parseEvents_cases u (init.foldl (parseEvents u) seed) e with
      ⟨_, h⟩ | ⟨_, _, h⟩ | ⟨_, _, _, h⟩ | ⟨ht, hi, _, _⟩
    · rw [h]; exact ih2
    · rw [h]; exact ih2
    · rw [h]; exact ih2
    · rcases hvalid e (by simp) with h | h
      · rw [ht] at h; cases h
      · rw [hi] at h; cases h

theorem foldl_error_some (u : Utils) (batch : List JObj) (seed : Memo)
    (hbad : ∃ e ∈ batch, isTimeline e = false ∧ isImpression e = false) :
    hasErrorMemo (batch.foldl (parseEvents u) seed) = true := by
  induction batch using List.reverseRecOn with
  | nil => obtain ⟨e, he, _⟩ := hbad; cases he
  | append_singleton init e ih =>
    rw [foldl_parseEvents_snoc]
    rcases parseEvents_cases u (init.foldl (parseEvents u) seed) e with
      ⟨ht, h⟩ | ⟨ht, hp, h⟩ | ⟨ht, hi, _, h⟩ | ⟨_, _, _, h⟩
    · have : ∃ e0 ∈ init, isTimeline e0 = false ∧ isImpression e0 = false := by
        obtain ⟨e0, he0, h1, h2⟩ := hbad
        simp only [List.mem_append, List.mem_singleton] at he0
        rcases he0 with he0 | he0
        · exact ⟨e0, he0, h1, h2⟩
        · subst he0; rw [ht] at h1; cases h1
      rw [h]; exact ih this
    · have : ∃ e0 ∈ init, isTimeline e0 = false ∧ isImpression e0 = false := by
        obtain ⟨e0, he0, h1, h2⟩ := hbad
        simp only [List.mem_append, List.mem_singleton] at he0
        rcases he0 with he0 | he0
        · exact ⟨e0, he0, h1, h2⟩
        · subst he0
          simp only [isPublicImpression, Bool.and_eq_true] at hp
          rw [hp.1] at h2; cases h2
      rw [h]; exact ih this
    · have : ∃ e0 ∈ init, isTimeline e0 = false ∧ isImpression e0 = false := by
        obtain ⟨e0, he0, h1, h2⟩ := hbad
        simp only [List.mem_append, List.mem_singleton] at he0
        rcases he0 with he0 | he0
        · exact ⟨e0, he0, h1, h2⟩
        · subst he0; rw [hi] at h2; cases h2
      rw [h]; exact ih this
    · rw [h]; rfl

theorem foldl_records_length (u : Utils) (batch : List JObj) (seed : Memo)
    (hvalid : ∀ e ∈ batch, isTimeline e = true ∨ isImpression e = true) :
    (batch.foldl (parseEvents u) seed).timelines.length +
      (batch.foldl (parseEvents u) seed).impressions.length =
      seed.timelines.length + seed.impressions.length + batch.length := by
  induction batch using List.reverseRecOn with
  | nil => simp
  | append_singleton init e ih =>
    have ih2 := ih (fun e0 he0 => hvalid e0 (by simp [he0]))
    rw [foldl_parseEvents_snoc]
    rcases parseEvents_cases u (init.foldl (parseEvents u) seed) e with
      ⟨_, h⟩ | ⟨_, _, h⟩ | ⟨_, _, _, h⟩ | ⟨ht, hi, _, _⟩
    · rw [h]; simp only [List.length_append, List.length_singleton]; omega
    · rw [h]; simp only [List.length_append, List.length_singleton]; omega
    · rw [h]; simp only [List.length_append, List.length_singleton]; omega
    · rcases hvalid e (by simp) with h | h
      · rw [ht] at h; cases h
      · rw [hi] at h; cases h

/-! ## `processHeaders` -/

theorem compact_missingHeaders (received : JObj) (required : List (String × String))
    (hnames : ∀ p ∈ required, p.1 ≠ "") :
    compact (missingHeaders received required) =
      (required.filter (fun p => decide (getField received p.1 = JVal.undefined))).map
        Prod.fst := by
  induction required with
  | nil => rfl
  | cons p rest ih =>
    have ih2 := ih (fun q hq => hnames q (by simp [hq]))
    have hp : p.1 ≠ "" := hnames p (by simp)
    simp only [compact, missingHeaders] at ih2 ⊢
    by_cases h : getField received p.1 = JVal.undefined
    · simp [List.filter, h, hp, ih2]
    · simp [List.filter, h, ih2]

theorem collectHeaders_foldl (received : JObj) (required : List (String × String))
    (hall : ∀ p ∈ required, getField received p.1 ≠ JVal.undefined)
    (hdest : (required.map Prod.snd).Nodup) (acc : JObj) :
    (∀ p ∈ required,
      getField (required.foldl (fun ret p =>
        if getField received p.1 = JVal.undefined then ret
        else setField ret p.2 (getField received p.1)) acc) p.2 = getField received p.1) ∧
    (∀ k, k ∉ required.map Prod.snd →
      getField (required.foldl (fun ret p =>
        if getField received p.1 = JVal.undefined then ret
        else setField ret p.2 (getField received p.1)) acc) k = getField acc k) := by
  induction required generalizing acc with
  | nil => simp
  | cons q rest ih =>
    have hq : getField received q.1 ≠ JVal.undefined := hall q (by simp)
    have hnd : q.2 ∉ rest.map Prod.snd ∧ (rest.map Prod.snd).Nodup := by
      simpa using hdest
    obtain ⟨ih1, ih2⟩ := ih (fun p hp => hall p (by simp [hp])) hnd.2
      (setField acc q.2 (getField received q.1))
    simp only [List.foldl_cons, hq, if_false]
    constructor
    · intro p hp
      simp only [List.mem_cons] at hp
      rcases hp with hp | hp
      · subst hp
        rw [ih2 _ hnd.1, getField_setField_same]
      · exact ih1 p hp
    · intro k hk
      have hk2 : k ≠ q.2 ∧ k ∉ rest.map Prod.snd := by
        simpa using hk
      rw [ih2 k hk2.2, getField_setField_ne _ _ _ _ (fun e => hk2.1 e.symm)]

theorem collectHeaders_foldl_other (received : JObj) (required : List (String × String))
    (acc : JObj) (k : String) (hk : k ∉ required.map Prod.snd) :
    getField (required.foldl (fun ret p =>
        if getField received p.1 = JVal.undefined then ret
        else setField ret p.2 (getField received p.1)) acc) k = getField acc k := by
  induction required generalizing acc with
  | nil => rfl
  | cons q rest ih =>
    have hk2 : k ≠ q.2 ∧ k ∉ rest.map Prod.snd := by simpa using hk
    simp only [List.foldl_cons]
    rw [ih _ hk2.2]
    by_cases h : getField received q.1 = JVal.undefined
    · simp [h]
    · simp only [h, if_false]
      exact getField_setField_ne _ _ _ _ (fun e => hk2.1 e.symm)

/-- A property that is neither `errors` nor a destination field of the manifest of
`processEvents` is undefined in the result of `processHeaders`. -/
theorem getField_processHeaders_other (received : JObj) (k : String)
    (hk : k ∉ requiredHeaders.map Prod.snd) (hk2 : k ≠ "errors") :
    getField (processHeaders received requiredHeaders) k = JVal.undefined := by
  unfold processHeaders
  simp only []
  split
  · have : (k == "errors") = false := by simpa using hk2
    simp [getField, List.lookup, this]
  · exact collectHeaders_foldl_other received requiredHeaders [] k hk

theorem hasError_processHeaders (received : JObj) :
    hasError (processHeaders received requiredHeaders) = false := by
  simp [hasError, getField_processHeaders_other received "error" (by decide) (by decide)]

/-- With a required header missing, the result of `processHeaders` is the error value. -/
theorem processHeaders_missing (received : JObj)
    (hmiss : ∃ p ∈ requiredHeaders, getField received p.1 = JVal.undefined) :
    processHeaders received requiredHeaders =
      [("errors", JVal.strs ((requiredHeaders.filter
        (fun p => decide (getField received p.1 = JVal.undefined))).map Prod.fst))] := by
  have hc := compact_missingHeaders received requiredHeaders (by decide)
  obtain ⟨p, hp, hp2⟩ := hmiss
  have hmem : p ∈ requiredHeaders.filter
      (fun p => decide (getField received p.1 = JVal.undefined)) := by
    simp [List.mem_filter, hp, hp2]
  have hlen : (compact (missingHeaders received requiredHeaders)).length ≠ 0 := by
    rw [hc, List.length_map]
    exact fun h => List.not_mem_nil p (List.length_eq_zero.mp h ▸ hmem)
  rw [hc] at hlen
  simp only [processHeaders, hc]
  rw [if_pos hlen]

/-! ## Promise chains -/

theorem Step.bind_error {α β : Type} (s : Step α) (f : α → Step β) (e : String)
    (h : s.1 = Except.error e) : Step.bind s f = (Except.error e, s.2) := by
  simp [Step.bind, h]

theorem Step.bind_ok {α β : Type} (s : Step α) (f : α → Step β) (a : α)
    (h : s.1 = Except.ok a) : Step.bind s f = ((f a).1, s.2 ++ (f a).2) := by
  simp [Step.bind, h]

theorem Step.bind_assoc {α β γ : Type} (s : Step α) (f : α → Step β) (g : β → Step γ) :
    Step.bind (Step.bind s f) g = Step.bind s (fun a => Step.bind (f a) g) := by
  obtain ⟨r, t⟩ := s
  cases r with
  | error e => simp [Step.bind]
  | ok a =>
    cases h : (f a).1 with
    | error e => simp [Step.bind, h]
    | ok b => simp [Step.bind, h, List.append_assoc]

/-- The part of the chain that follows the identity resolution. -/
theorem pipeline_eq (u : Utils) (w : World) (req : Request) (headers : JObj)
    (geoinfo : JVal) :
    pipeline u w req headers geoinfo =
      Step.bind (resolveSupporter u w headers)
        (fun s => Step.bind (checkSignature w req headers s) (persist u w req geoinfo)) := by
  unfold pipeline
  exact Step.bind_assoc _ _ _

theorem processEvents_eq (u : Utils) (w : World) (req : Request) :
    processEvents u w req =
      (Except.ok (respond (pipeline u w req
          (processHeaders req.headers requiredHeaders) (geoInfo w req))),
        (pipeline u w req (processHeaders req.headers requiredHeaders) (geoInfo w req)).2) := by
  simp [processEvents, hasError_processHeaders]

theorem respond_error (chain : Step (List ResultItem)) (msg : String)
    (h : chain.1 = Except.error msg) :
    respond chain = { status := "error", info := Info.message msg } := by
  simp [respond, h]

/-! ## The calls of each stage -/

theorem Step.bind_calls {α β : Type} (P : Call → Prop) (s : Step α) (f : α → Step β)
    (hs : ∀ c ∈ s.2, P c) (hf : ∀ a, ∀ c ∈ (f a).2, P c) :
    ∀ c ∈ (Step.bind s f).2, P c := by
  intro c hc
  cases h : s.1 with
  | error e =>
    rw [Step.bind_error s f e h] at hc
    exact hs c hc
  | ok a =>
    rw [Step.bind_ok s f a h] at hc
    rcases List.mem_append.mp hc with hc | hc
    · exact hs c hc
    · exact hf a c hc

theorem Step.tap_calls {α β : Type} (P : Call → Prop) (s : Step α) (f : α → Step β)
    (hs : ∀ c ∈ s.2, P c) (hf : ∀ a, ∀ c ∈ (f a).2, P c) :
    ∀ c ∈ (Step.tap s f).2, P c := by
  unfold Step.tap
  refine Step.bind_calls P s _ hs (fun a => ?_)
  refine Step.bind_calls P (f a) _ (hf a) (fun _ c hc => ?_)
  simp [Step.pure] at hc

theorem bootstrap_calls (u : Utils) (w : World) (headers : JObj) (supporterL : List JObj) :
    ∀ c ∈ (bootstrap u w headers supporterL).2, isEventWrite c = false := by
  unfold bootstrap
  split
  · refine Step.bind_calls _ _ _ (Step.tap_calls _ _ _ ?_ ?_) ?_
    · intro c hc
      simp only [List.mem_singleton] at hc
      subst hc; rfl
    · intro _ c hc
      simp only [reportAlarm, List.mem_singleton] at hc
      subst hc; rfl
    · intro _ c hc
      simp [Step.pure] at hc
  · intro c hc
    simp [Step.pure] at hc

theorem flagDuplicates_calls (w : World) (supporterL : List JObj) :
    ∀ c ∈ (flagDuplicates w supporterL).2, isEventWrite c = false := by
  unfold flagDuplicates
  split
  · intro c hc
    simp only [reportAlarm, List.mem_singleton] at hc
    subst hc; rfl
  · intro c hc
    simp [Step.pure] at hc

theorem resolveSupporter_calls (u : Utils) (w : World) (headers : JObj) :
    ∀ c ∈ (resolveSupporter u w headers).2, isEventWrite c = false := by
  unfold resolveSupporter
  refine Step.bind_calls _ _ _ (Step.tap_calls _ _ _ (Step.bind_calls _ _ _ ?_ ?_) ?_) ?_
  · intro c hc
    simp only [readSupporters, List.mem_singleton] at hc
    subst hc; rfl
  · exact bootstrap_calls u w headers
  · exact flagDuplicates_calls w
  · intro _ c hc
    simp [Step.pure] at hc

theorem Step.bind_calls_starts {α β : Type} (s : Step α) (f : α → Step β) :
    ∃ rest, (Step.bind s f).2 = s.2 ++ rest := by
  cases h : s.1 with
  | error e => exact ⟨[], by rw [Step.bind_error s f e h]; simp⟩
  | ok a => exact ⟨(f a).2, by rw [Step.bind_ok s f a h]⟩

theorem checkSignature_calls (w : World) (req : Request) (headers : JObj)
    (a : Option JObj) :
    ∀ c ∈ (checkSignature w req headers a).2,
      isEventWrite c = false ∧ isWriteOne c = false ∧ isTofuAlarm c = false := by
  have alarm : ∀ (what msg : String), what ≠ "TOFU" →
      ∀ c ∈ (Step.bind (reportAlarm w "events" what (AlarmInfo.obj headers))
        (fun _ => (Step.throw msg : Step JObj))).2,
      isEventWrite c = false ∧ isWriteOne c = false ∧ isTofuAlarm c = false := by
    intro what msg hne
    refine Step.bind_calls _ _ _ ?_ ?_
    · intro c hc
      simp only [reportAlarm, List.mem_singleton] at hc
      subst hc
      exact ⟨rfl, rfl, by simp [isTofuAlarm, hne]⟩
    · intro _ c hc
      simp [Step.throw] at hc
  cases a with
  | none => intro c hc; simp [checkSignature, Step.throw] at hc
  | some supporter =>
    simp only [checkSignature]
    split_ifs
    · exact alarm _ _ (by decide)
    · exact alarm _ _ (by decide)
    · intro c hc
      simp [Step.pure] at hc

theorem promisifyInputs_calls (u : Utils) (body : List JObj) (geoinfo : JVal)
    (supporter : JObj) (functionList : List Pending)
    (h : promisifyInputs u body geoinfo supporter = Except.ok functionList) :
    ∀ p ∈ functionList, isEventWrite p.call = true := by
  unfold promisifyInputs at h
  simp only [] at h
  split at h
  · cases h
  · injection h with h
    subst h
    intro p hp
    split_ifs at hp <;> simp at hp <;>
      first
        | (subst hp; rfl)
        | (rcases hp with hp | hp <;> subst hp <;> rfl)
        | (rcases hp with hp | hp | hp <;> subst hp <;> rfl)
        | (rcases hp with hp | hp | hp | hp <;> subst hp <;> rfl)

theorem persist_calls (u : Utils) (w : World) (req : Request) (geoinfo : JVal)
    (supporter : JObj) :
    ∀ c ∈ (persist u w req geoinfo supporter).2,
      isWriteOne c = false ∧ isTofuAlarm c = false := by
  unfold persist
  cases h : promisifyInputs u req.body geoinfo supporter with
  | error e => intro c hc; simp [Step.throw] at hc
  | ok functionList =>
    intro c hc
    simp only [List.mem_map] at hc
    obtain ⟨p, hp, rfl⟩ := hc
    have := promisifyInputs_calls u req.body geoinfo supporter functionList h p hp
    cases hcall : p.call <;> simp [hcall, isEventWrite] at this <;>
      exact ⟨rfl, rfl⟩

/-- The calls issued after the identity resolution hold no `writeOne` and no `TOFU`
alarm. -/
theorem tail_calls (u : Utils) (w : World) (req : Request) (headers : JObj)
    (geoinfo : JVal) (a : Option JObj) :
    ∀ c ∈ (Step.bind (checkSignature w req headers a) (persist u w req geoinfo)).2,
      isWriteOne c = false ∧ isTofuAlarm c = false := by
  refine Step.bind_calls _ _ _ ?_ ?_
  · intro c hc
    exact (checkSignature_calls w req headers a c hc).2
  · intro s
    exact persist_calls u w req geoinfo s

/-- A failed signature check: one alarm, then the chain rejects. -/
theorem checkSignature_fail (w : World) (req : Request) (headers supporter : JObj)
    (hfail : size (getField headers "signature") = 0 ∨
      size (getField supporter "publicKey") = 0 ∨ w.verifyRequestSignature req = false) :
    ∃ msg, checkSignature w req headers (some supporter) =
      (Except.error msg,
        [Call.reportAlarm "events"
          (if size (getField headers "signature") = 0 ∨
              size (getField supporter "publicKey") = 0
            then "Validation fail" else "Signature verification failure")
          (AlarmInfo.obj headers)]) := by
  by_cases hv : size (getField headers "signature") = 0 ∨
      size (getField supporter "publicKey") = 0
  · have hcond : (!([getField headers "signature", getField supporter "publicKey"].all
        (fun v => decide (size v ≠ 0)))) = true := by
      rcases hv with h | h <;> simp [h]
    simp only [checkSignature, hcond, if_true, hv]
    cases ha : w.reportAlarm "events" "Validation fail" (AlarmInfo.obj headers) with
    | error e => exact ⟨e, by simp [Step.bind, reportAlarm, ha]⟩
    | ok _ => exact ⟨_, by simp [Step.bind, reportAlarm, ha, Step.throw]; rfl⟩
  · have hver : w.verifyRequestSignature req = false := by
      rcases hfail with h | h | h
      · exact absurd (Or.inl h) hv
      · exact absurd (Or.inr h) hv
      · exact h
    have hcond : (!([getField headers "signature", getField supporter "publicKey"].all
        (fun v => decide (size v ≠ 0)))) = false := by
      have h1 : size (getField headers "signature") ≠ 0 := fun h => hv (Or.inl h)
      have h2 : size (getField supporter "publicKey") ≠ 0 := fun h => hv (Or.inr h)
      simp [h1, h2]
    simp only [checkSignature, hcond, hver, hv, if_false, Bool.not_false, if_true,
      Bool.false_eq_true]
    cases ha : w.reportAlarm "events" "Signature verification failure"
        (AlarmInfo.obj headers) with
    | error e => exact ⟨e, by simp [Step.bind, reportAlarm, ha]⟩
    | ok _ => exact ⟨_, by simp [Step.bind, reportAlarm, ha, Step.throw]; rfl⟩

/-- When the signature cannot be accepted the chain rejects, issues no event write and no
`updateOne`, and, once the identity is resolved, ends with the alarm of the check. -/
theorem pipeline_signature_failure (u : Utils) (w : World) (req : Request)
    (headers : JObj) (geoinfo : JVal)
    (hfail : size (getField headers "signature") = 0 ∨
      w.verifyRequestSignature req = false ∨
      (∀ s t, resolveSupporter u w headers = (Except.ok (some s), t) →
        size (getField s "publicKey") = 0)) :
    (∃ msg, (pipeline u w req headers geoinfo).1 = Except.error msg) ∧
    (∀ c ∈ (pipeline u w req headers geoinfo).2, isEventWrite c = false) ∧
    (∀ s t, resolveSupporter u w headers = (Except.ok (some s), t) →
      (pipeline u w req headers geoinfo).2 = t ++
        [Call.reportAlarm "events"
          (if size (getField headers "signature") = 0 ∨ size (getField s "publicKey") = 0
            then "Validation fail" else "Signature verification failure")
          (AlarmInfo.obj headers)]) := by
  have hcalls := resolveSupporter_calls u w headers
  rw [pipeline_eq]
  rcases hres : resolveSupporter u w headers with ⟨r, t⟩
  rw [hres] at hcalls
  cases r with
  | error e =>
    rw [Step.bind_error _ _ e rfl]
    exact ⟨⟨e, rfl⟩, hcalls, fun s t2 h => by cases h⟩
  | ok a =>
    rw [Step.bind_ok _ _ a rfl]
    cases a with
    | none =>
      refine ⟨⟨_, by simp [checkSignature, Step.throw, Step.bind]; rfl⟩, ?_,
        fun s t2 h => by cases h⟩
      intro c hc
      simp [checkSignature, Step.throw, Step.bind] at hc
      exact hcalls c hc
    | some s =>
      have hfail2 : size (getField headers "signature") = 0 ∨
          size (getField s "publicKey") = 0 ∨ w.verifyRequestSignature req = false := by
        rcases hfail with h | h | h
        · exact Or.inl h
        · exact Or.inr (Or.inr h)
        · exact Or.inr (Or.inl (h s t hres))
      obtain ⟨msg, hmsg⟩ := checkSignature_fail w req headers s hfail2
      have hb : Step.bind (checkSignature w req headers (some s)) (persist u w req geoinfo)
          = (Except.error msg, [Call.reportAlarm "events"
              (if size (getField headers "signature") = 0 ∨
                  size (getField s "publicKey") = 0
                then "Validation fail" else "Signature verification failure")
              (AlarmInfo.obj headers)]) := by
        rw [Step.bind_error _ _ msg (by rw [hmsg]), hmsg]
      rw [hb]
      refine ⟨⟨msg, rfl⟩, ?_, ?_⟩
      · intro c hc
        rcases List.mem_append.mp hc with hc | hc
        · exact hcalls c hc
        · simp only [List.mem_singleton] at hc
          subst hc; rfl
      · intro s2 t2 h
        injection h with h1 h2
        injection h1 with h1
        injection h1 with h1
        subst h1; subst h2; rfl

/-- The identity resolution when the lookup finds nobody, by outcome of the bootstrap write
and of the alarm. -/
theorem resolveSupporter_empty (u : Utils) (w : World) (headers : JObj)
    (hread : w.read Coll.supporters
      [("userId", u.parseInt (getField headers "supporterId")),
       ("publicKey", getField headers "publickey")] = Except.ok []) :
    resolveSupporter u w headers =
      (match w.writeOne Coll.supporters (tofuContent u headers) with
        | Except.error e => Except.error e
        | Except.ok _ =>
          match w.reportAlarm "events" "TOFU" AlarmInfo.ack with
          | Except.error e => Except.error e
          | Except.ok _ => Except.ok (some (tofuContent u headers)),
       [Call.read Coll.supporters
          [("userId", u.parseInt (getField headers "supporterId")),
           ("publicKey", getField headers "publickey")],
        Call.writeOne Coll.supporters (tofuContent u headers)] ++
       (match w.writeOne Coll.supporters (tofuContent u headers) with
        | Except.error _ => []
        | Except.ok _ => [Call.reportAlarm "events" "TOFU" AlarmInfo.ack])) := by
  cases hw : w.writeOne Coll.supporters (tofuContent u headers) with
  | error e =>
    simp [resolveSupporter, readSupporters, bootstrap, Step.bind, Step.tap, hread, hw]
  | ok _ =>
    cases ha : w.reportAlarm "events" "TOFU" AlarmInfo.ack with
    | error e =>
      simp [resolveSupporter, readSupporters, bootstrap, Step.bind, Step.tap, reportAlarm,
        hread, hw, ha]
    | ok _ =>
      simp [resolveSupporter, readSupporters, bootstrap, Step.bind, Step.tap, Step.pure,
        reportAlarm, flagDuplicates, hread, hw, ha]

theorem resolveSupporter_starts (u : Utils) (w : World) (headers : JObj) :
    ∃ rest, (resolveSupporter u w headers).2 =
      Call.read Coll.supporters
        [("userId", u.parseInt (getField headers "supporterId")),
         ("publicKey", getField headers "publickey")] :: rest := by
  unfold resolveSupporter Step.tap
  obtain ⟨r1, h1⟩ := Step.bind_calls_starts
    (Step.bind (Step.bind (readSupporters u w headers) (bootstrap u w headers))
      (fun a => Step.bind (flagDuplicates w a) (fun _ => Step.pure a)))
    (fun supporterL => Step.pure supporterL.head?)
  obtain ⟨r2, h2⟩ := Step.bind_calls_starts
    (Step.bind (readSupporters u w headers) (bootstrap u w headers))
    (fun a => Step.bind (flagDuplicates w a) (fun _ => Step.pure a))
  obtain ⟨r3, h3⟩ := Step.bind_calls_starts (readSupporters u w headers)
    (bootstrap u w headers)
  refine ⟨r3 ++ r2 ++ r1, ?_⟩
  rw [h1, h2, h3]
  simp [readSupporters]

theorem pipeline_starts (u : Utils) (w : World) (req : Request) (headers : JObj)
    (geoinfo : JVal) :
    ∃ rest, (pipeline u w req headers geoinfo).2 =
      (resolveSupporter u w headers).2 ++ rest := by
  rw [pipeline_eq]
  exact Step.bind_calls_starts _ _

theorem promisifyInputs_invalid (u : Utils) (body : List JObj) (geoinfo : JVal)
    (supporter : JObj)
    (hbad : ∃ e ∈ body, isTimeline e = false ∧ isImpression e = false) :
    promisifyInputs u body geoinfo supporter = Except.error "req is not defined" := by
  have h := foldl_error_some u body (initialMemo geoinfo supporter) hbad
  simp [promisifyInputs, h, reportError]

/-- With every header of the manifest defined, `processHeaders` returns the context. -/
theorem processHeaders_present (received : JObj) (required : List (String × String))
    (hnames : ∀ p ∈ required, p.1 ≠ "")
    (hall : ∀ p ∈ required, getField received p.1 ≠ JVal.undefined) :
    processHeaders received required = collectHeaders received required := by
  have hc := compact_missingHeaders received required hnames
  have hnone : required.filter
      (fun p => decide (getField received p.1 = JVal.undefined)) = [] := by
    rw [List.filter_eq_nil_iff]
    intro p hp
    simpa using hall p hp
  simp [processHeaders, hc, hnone]

/-- With the six required headers defined, each destination field of the context holds
the value of its header. -/
theorem getField_processHeaders_required (received : JObj)
    (hall : ∀ p ∈ requiredHeaders, getField received p.1 ≠ JVal.undefined)
    (p : String × String) (hp : p ∈ requiredHeaders) :
    getField (processHeaders received requiredHeaders) p.2 = getField received p.1 := by
  rw [processHeaders_present received requiredHeaders (by decide) hall]
  exact (collectHeaders_foldl received requiredHeaders hall (by decide) []).1 p hp

theorem filter_append_none {α : Type} (P : α → Bool) (l r : List α)
    (hr : ∀ c ∈ r, P c = false) : (l ++ r).filter P = l.filter P := by
  rw [List.filter_append]
  have : r.filter P = [] := by
    rw [List.filter_eq_nil_iff]
    intro c hc
    simp [hr c hc]
  rw [this, List.append_nil]

/-- A kind of call that the stages after the identity resolution never issue occurs in the
chain exactly as it occurs in the identity resolution. -/
theorem pipeline_filter (u : Utils) (w : World) (req : Request) (headers : JObj)
    (geoinfo : JVal) (P : Call → Bool)
    (hP : ∀ a, ∀ c ∈ (Step.bind (checkSignature w req headers a)
      (persist u w req geoinfo)).2, P c = false) :
    (pipeline u w req headers geoinfo).2.filter P =
      (resolveSupporter u w headers).2.filter P := by
  rw [pipeline_eq]
  cases h : (resolveSupporter u w headers).1 with
  | error e => rw [Step.bind_error _ _ e h]
  | ok a =>
    rw [Step.bind_ok _ _ a h]
    exact filter_append_none P _ _ (hP a)

/-! ## Properties of `parseEvents` -/

/-- C3: for every accumulator and every impression whose visibility is not `public`,
whatever its html, `parseEvents` leaves the htmls bucket unchanged and appends one
impression record that has neither an `html` nor an `htmlId` property.  Consequently, after
folding `parseEvents` over any batch from any seed: every snippet added to the htmls bucket
carries the html of a public impression of the batch, and there are exactly as many of them
as public impressions; every impression record added has no `html` property, and an `htmlId`
only when it is the hash of the html of a public impression; every timeline record added has
no `html` property; every error entry added is the serialisation of an event that is not an
impression. -/
theorem nonpublic_impression_html_never_stored (u : Utils) (memo : Memo) (evnt : JObj)
    (htype : getField evnt "type" = JVal.str "impression")
    (hvis : getField evnt "visibility" ≠ JVal.str "public") :
    (parseEvents u memo evnt).htmls = memo.htmls ∧
    (∃ record, (parseEvents u memo evnt).impressions = memo.impressions ++ [record] ∧
      record.lookup "html" = none ∧ record.lookup "htmlId" = none) ∧
    (∀ (batch : List JObj) (seed : Memo),
      (∀ s ∈ (batch.foldl (parseEvents u) seed).htmls, s ∈ seed.htmls ∨
        ∃ e ∈ batch, isPublicImpression e = true ∧
          getField s "html" = getField e "html") ∧
      (batch.foldl (parseEvents u) seed).htmls.length =
        seed.htmls.length + (batch.filter isPublicImpression).length ∧
      (∀ r ∈ (batch.foldl (parseEvents u) seed).impressions, r ∈ seed.impressions ∨
        (r.lookup "html" = none ∧
          (r.lookup "htmlId" ≠ none → ∃ e ∈ batch, isPublicImpression e = true ∧
            getField r "htmlId" = JVal.str (u.hash [("html", getField e "html")])))) ∧
      (∀ t ∈ (batch.foldl (parseEvents u) seed).timelines,
        t ∈ seed.timelines ∨ t.lookup "html" = none) ∧
      (∀ s ∈ errorEntries (batch.foldl (parseEvents u) seed), s ∈ errorEntries seed ∨
        ∃ e ∈ batch, isTimeline e = false ∧ isImpression e = false ∧
          s = u.stringify ⟨"invalid type", e⟩)) := by
  refine ⟨?_, ?_, ?_⟩
  · rw [parseEvents_private u memo evnt htype hvis]
  · refine ⟨omitKeys (baseImpression u memo evnt) ["html"], ?_, lookup_record_html _, ?_⟩
    · rw [parseEvents_private u memo evnt htype hvis]
    · rw [lookup_omitKeys_not_mem _ _ _ (by decide), lookup_baseImpression_htmlId]
  · intro batch seed
    exact ⟨foldl_htmls_origin u batch seed, foldl_htmls_length u batch seed,
      foldl_impressions_clean u batch seed, foldl_timelines_clean u batch seed,
      foldl_error_origin u batch seed⟩

/-- C3 at a friends-only impression carrying html: the htmls bucket stays empty. -/
theorem nonpublic_impression_html_never_stored_witness :
    getField samplePrivate "type" = JVal.str "impression" ∧
    getField samplePrivate "visibility" ≠ JVal.str "public" ∧
    (parseEvents sampleUtils sampleMemo samplePrivate).htmls = [] :=
  ⟨by decide, by decide,
    (nonpublic_impression_html_never_stored sampleUtils sampleMemo samplePrivate
      (by decide) (by decide)).1⟩

/-- C4: for every accumulator and every impression with visibility `public` (in particular
one with non-empty html), `parseEvents` appends exactly one snippet to the htmls bucket and
exactly one record to the impressions bucket; the id of the snippet is the hash of the html
content, its html is the raw html, its impressionId and timelineId are the id and timelineId
of the impression record (the hashes derived from the event); the record has no `html`
property and its htmlId is the id of the snippet. -/
theorem public_impression_snippet (u : Utils) (memo : Memo) (evnt : JObj)
    (htype : getField evnt "type" = JVal.str "impression")
    (hvis : getField evnt "visibility" = JVal.str "public") :
    ∃ snippet record,
      (parseEvents u memo evnt).htmls = memo.htmls ++ [snippet] ∧
      (parseEvents u memo evnt).impressions = memo.impressions ++ [record] ∧
      getField snippet "id" = JVal.str (u.hash [("html", getField evnt "html")]) ∧
      getField snippet "html" = getField evnt "html" ∧
      getField snippet "impressionId" = getField record "id" ∧
      getField snippet "timelineId" = getField record "timelineId" ∧
      getField record "id" = JVal.str (u.hash [("uuid", getField evnt "timelineId"),
        ("user", memo.sessionInfo.numId), ("order", getField evnt "impressionOrder")]) ∧
      getField record "timelineId" = JVal.str (u.hash [("uuid", getField evnt "timelineId"),
        ("user", memo.sessionInfo.numId)]) ∧
      record.lookup "html" = none ∧
      getField record "htmlId" = getField snippet "id" := by
  refine ⟨_, _, by rw [parseEvents_public u memo evnt htype hvis],
    by rw [parseEvents_public u memo evnt htype hvis], ?_, ?_, ?_, ?_, ?_, ?_,
    lookup_record_html _, ?_⟩
  · simp [mkSnippet, getField, List.lookup, lookup_setField_same]
  · rw [getField_mkSnippet_html, getField_public_html]
  · rw [getField_omitKeys_not_mem _ _ _ (by decide)]
    simp [mkSnippet, getField, List.lookup]
  · rw [getField_omitKeys_not_mem _ _ _ (by decide)]
    simp [mkSnippet, getField, List.lookup]
  · rw [getField_omitKeys_not_mem _ _ _ (by decide),
      getField_setField_ne _ _ _ _ (by decide), getField_baseImpression_id]
  · rw [getField_omitKeys_not_mem _ _ _ (by decide),
      getField_setField_ne _ _ _ _ (by decide), getField_baseImpression_timelineId]
  · rw [getField_omitKeys_not_mem _ _ _ (by decide), getField_setField_same]
    simp [mkSnippet, getField, List.lookup, lookup_setField_same]

/-- C4 at a public impression with html: one snippet and one record are produced. -/
theorem public_impression_snippet_witness :
    getField samplePublic "type" = JVal.str "impression" ∧
    getField samplePublic "visibility" = JVal.str "public" ∧
    size (getField samplePublic "html") ≠ 0 ∧
    ∃ snippet record,
      (parseEvents sampleUtils sampleMemo samplePublic).htmls = [snippet] ∧
      (parseEvents sampleUtils sampleMemo samplePublic).impressions = [record] ∧
      getField snippet "html" = JVal.str "<div>post</div>" ∧
      record.lookup "html" = none := by
  refine ⟨by decide, by decide, by decide, ?_⟩
  obtain ⟨s, r, h1, h2, _, h4, _, _, _, _, h9, _⟩ :=
    public_impression_snippet sampleUtils sampleMemo samplePublic (by decide) (by decide)
  exact ⟨s, r, h1, h2, h4, h9⟩

/-- C8: the identifiers derived by `parseEvents` depend only on the identifying fields of
the event and on the resolved user id.  Under two helper libraries that share the hash
(clock, date parsing and integer parsing may differ) and two accumulators that share the
user id: two timeline events with the same `id` give records with the same id, which is
`hash(uuid: id, user: userId)`; two impressions with the same `timelineId` and
`impressionOrder` give records with the same id and the same timelineId; and the timelineId
of an impression record is the id of the timeline record of a timeline event whose `id` is
the `timelineId` of the impression. -/
theorem derived_ids_pure (u1 u2 : Utils) (m1 m2 : Memo)
    (hhash : u1.hash = u2.hash)
    (huser : m1.sessionInfo.numId = m2.sessionInfo.numId) :
    (∀ e1 e2 : JObj, getField e1 "type" = JVal.str "timeline" →
      getField e2 "type" = JVal.str "timeline" → getField e1 "id" = getField e2 "id" →
      ∃ t1 t2, (parseEvents u1 m1 e1).timelines = m1.timelines ++ [t1] ∧
        (parseEvents u2 m2 e2).timelines = m2.timelines ++ [t2] ∧
        getField t1 "id" = getField t2 "id" ∧
        getField t1 "id" =
          JVal.str (u1.hash [("uuid", getField e1 "id"), ("user", m1.sessionInfo.numId)])) ∧
    (∀ e1 e2 : JObj, getField e1 "type" = JVal.str "impression" →
      getField e2 "type" = JVal.str "impression" →
      getField e1 "timelineId" = getField e2 "timelineId" →
      getField e1 "impressionOrder" = getField e2 "impressionOrder" →
      ∃ r1 r2, (parseEvents u1 m1 e1).impressions = m1.impressions ++ [r1] ∧
        (parseEvents u2 m2 e2).impressions = m2.impressions ++ [r2] ∧
        getField r1 "id" = getField r2 "id" ∧
        getField r1 "timelineId" = getField r2 "timelineId" ∧
        getField r1 "id" = JVal.str (u1.hash [("uuid", getField e1 "timelineId"),
          ("user", m1.sessionInfo.numId), ("order", getField e1 "impressionOrder")])) ∧
    (∀ e t : JObj, getField e "type" = JVal.str "impression" →
      getField t "type" = JVal.str "timeline" →
      getField t "id" = getField e "timelineId" →
      ∃ r tl, (parseEvents u1 m1 e).impressions = m1.impressions ++ [r] ∧
        (parseEvents u2 m2 t).timelines = m2.timelines ++ [tl] ∧
        getField r "timelineId" = getField tl "id") := by
  have record_ids : ∀ (u : Utils) (m : Memo) (e : JObj),
      getField e "type" = JVal.str "impression" →
      ∃ r, (parseEvents u m e).impressions = m.impressions ++ [r] ∧
        getField r "id" = JVal.str (u.hash [("uuid", getField e "timelineId"),
          ("user", m.sessionInfo.numId), ("order", getField e "impressionOrder")]) ∧
        getField r "timelineId" = JVal.str (u.hash [("uuid", getField e "timelineId"),
          ("user", m.sessionInfo.numId)]) := by
    intro u m e he
    by_cases hv : getField e "visibility" = JVal.str "public"
    · refine ⟨_, by rw [parseEvents_public u m e he hv], ?_, ?_⟩
      · rw [getField_omitKeys_not_mem _ _ _ (by decide),
          getField_setField_ne _ _ _ _ (by decide), getField_baseImpression_id]
      · rw [getField_omitKeys_not_mem _ _ _ (by decide),
          getField_setField_ne _ _ _ _ (by decide), getField_baseImpression_timelineId]
    · refine ⟨_, by rw [parseEvents_private u m e he hv], ?_, ?_⟩
      · rw [getField_omitKeys_not_mem _ _ _ (by decide), getField_baseImpression_id]
      · rw [getField_omitKeys_not_mem _ _ _ (by decide), getField_baseImpression_timelineId]
  refine ⟨?_, ?_, ?_⟩
  · intro e1 e2 h1 h2 hid
    refine ⟨newTimeline u1 m1 e1, newTimeline u2 m2 e2,
      by rw [parseEvents_timeline u1 m1 e1 h1], by rw [parseEvents_timeline u2 m2 e2 h2],
      ?_, getField_newTimeline_id u1 m1 e1⟩
    rw [getField_newTimeline_id, getField_newTimeline_id, hhash, huser, hid]
  · intro e1 e2 h1 h2 htl hord
    obtain ⟨r1, hr1, hid1, htl1⟩ := record_ids u1 m1 e1 h1
    obtain ⟨r2, hr2, hid2, htl2⟩ := record_ids u2 m2 e2 h2
    refine ⟨r1, r2, hr1, hr2, ?_, ?_, hid1⟩
    · rw [hid1, hid2, hhash, huser, htl, hord]
    · rw [htl1, htl2, hhash, huser, htl]
  · intro e t he ht hid
    obtain ⟨r, hr, _, htl⟩ := record_ids u1 m1 e he
    refine ⟨r, newTimeline u2 m2 t, hr, by rw [parseEvents_timeline u2 m2 t ht], ?_⟩
    rw [htl, getField_newTimeline_id, hhash, huser, hid]

/-- C8 at a timeline event resubmitted later, from another page, under another clock and
into another accumulator: the two records have the same id. -/
theorem derived_ids_pure_witness :
    sampleUtils.hash = laterUtils.hash ∧
    sampleMemo.sessionInfo.numId = busyMemo.sessionInfo.numId ∧
    ∃ t1 t2,
      (parseEvents sampleUtils sampleMemo sampleTimeline).timelines = [t1] ∧
      (parseEvents laterUtils busyMemo sampleTimelineAgain).timelines =
        busyMemo.timelines ++ [t2] ∧
      getField t1 "id" = getField t2 "id" := by
  refine ⟨rfl, rfl, ?_⟩
  obtain ⟨t1, t2, h1, h2, h3, _⟩ :=
    (derived_ids_pure sampleUtils laterUtils sampleMemo busyMemo rfl rfl).1
      sampleTimeline sampleTimelineAgain (by decide) (by decide) (by decide)
  exact ⟨t1, t2, h1, h2, h3⟩

/-! ## Properties of `promisifyInputs` -/

/-- C10: for every batch whose events all have type `timeline` or `impression` and every
resolved identity, `promisifyInputs` returns exactly: one `writeMany` of the whole htmls
bucket when it is not empty, one of the whole impressions bucket when it is not empty, one
of the whole timelines bucket when it is not empty, each resolving with the summary made of
the name of the bucket and of its number of records, and none for an empty bucket; then one
`updateOne` of the supporters collection keyed by the public key and the parsed user id of
the identity, with `lastActivity` set to the current time.  The buckets are those of the
fold of `parseEvents`; timelines and impressions together number as many as the events, and
the snippets as many as the public impressions. -/
theorem promisifyInputs_grouped_writes (u : Utils) (body : List JObj) (geoinfo : JVal)
    (supporter : JObj)
    (hvalid : ∀ e ∈ body, isTimeline e = true ∨ isImpression e = true) :
    ∃ processed : Memo,
      processed = body.foldl (parseEvents u) (initialMemo geoinfo supporter) ∧
      promisifyInputs u body geoinfo supporter = Except.ok (
        (if processed.htmls.length ≠ 0 then
          [⟨Call.writeMany Coll.htmls processed.htmls,
            ResultItem.summary "htmls" processed.htmls.length⟩] else []) ++
        (if processed.impressions.length ≠ 0 then
          [⟨Call.writeMany Coll.impressions processed.impressions,
            ResultItem.summary "impressions" processed.impressions.length⟩] else []) ++
        (if processed.timelines.length ≠ 0 then
          [⟨Call.writeMany Coll.timelines processed.timelines,
            ResultItem.summary "timelines" processed.timelines.length⟩] else []) ++
        [⟨Call.updateOne Coll.supporters
            [("publicKey", getField supporter "publicKey"),
             ("userId", u.parseInt (getField supporter "userId"))]
            (setField supporter "lastActivity" (JVal.date u.now)),
          ResultItem.ack⟩]) ∧
      getField (setField supporter "lastActivity" (JVal.date u.now)) "lastActivity" =
        JVal.date u.now ∧
      processed.timelines.length + processed.impressions.length = body.length ∧
      processed.htmls.length = (body.filter isPublicImpression).length := by
  refine ⟨_, rfl, ?_, getField_setField_same _ _ _, ?_, ?_⟩
  · have herr : hasErrorMemo (body.foldl (parseEvents u) (initialMemo geoinfo supporter))
        = false := by
      simp [hasErrorMemo, foldl_error_none u body (initialMemo geoinfo supporter) rfl hvalid]
    unfold promisifyInputs
    simp only [herr, Bool.false_eq_true, if_false]
    split_ifs <;> simp
  · have := foldl_records_length u body (initialMemo geoinfo supporter) hvalid
    simpa [initialMemo] using this
  · have := foldl_htmls_length u body (initialMemo geoinfo supporter)
    simpa [initialMemo] using this

/-- C10 at a batch of one timeline, one public and one non-public impression: three records
in the timelines and impressions buckets together, one snippet. -/
theorem promisifyInputs_grouped_writes_witness :
    (∀ e ∈ sampleBody, isTimeline e = true ∨ isImpression e = true) ∧
    ∃ processed : Memo,
      processed = sampleBody.foldl (parseEvents sampleUtils)
        (initialMemo (JVal.str "IT") sampleSupporter) ∧
      processed.timelines.length + processed.impressions.length = 3 ∧
      processed.htmls.length = 1 := by
  refine ⟨by decide, ?_⟩
  obtain ⟨processed, h0, _, _, h1, h2⟩ :=
    promisifyInputs_grouped_writes sampleUtils sampleBody (JVal.str "IT") sampleSupporter
      (by decide)
  exact ⟨processed, h0, h1, h2.trans (by decide)⟩

/-! ## Properties of `processHeaders` -/

/-- C5 fails as stated, on two manifests of plain property names.  With the manifest that
maps the empty header name to `x` and an empty bag, a manifest header is undefined in the
bag and the result is the empty context, not an error value: `_.compact` drops the empty
name.  With the manifest that maps `a` and `b` to the same field `x` and a bag that holds
both, no header is missing and the field `x` holds the value of `b`, not the value of
`a`. -/
theorem processHeaders_contract_counterexample :
    ((∃ p ∈ emptyNameManifest, getField (headerBag []) p.1 = JVal.undefined) ∧
      processHeaders (headerBag []) emptyNameManifest = []) ∧
    ((∀ p ∈ sharedManifest, getField (headerBag sharedBag) p.1 ≠ JVal.undefined) ∧
      ("a", "x") ∈ sharedManifest ∧
      getField (processHeaders (headerBag sharedBag) sharedManifest) "x" = JVal.str "2" ∧
      getField (headerBag sharedBag) "a" = JVal.str "1") := by
  decide

/-- C5, amended: for every received header bag, and the manifest that `processEvents`
passes (the six required headers and their destination fields), `processHeaders` checks
all the headers of the manifest.  If at least one of them is undefined in the bag, the
result is the error value that lists exactly the missing header names, every one of them
and none that is present, in manifest order; otherwise the result is a context in which
every destination field holds the value of its source header and which has no error
list: its `errors` property is undefined. -/
theorem processHeaders_complete (received : JObj) :
    ((∃ p ∈ requiredHeaders, getField received p.1 = JVal.undefined) →
      processHeaders received requiredHeaders =
        [("errors", JVal.strs ((requiredHeaders.filter
          (fun p => decide (getField received p.1 = JVal.undefined))).map Prod.fst))]) ∧
    ((∀ p ∈ requiredHeaders, getField received p.1 ≠ JVal.undefined) →
      (∀ p ∈ requiredHeaders,
        getField (processHeaders received requiredHeaders) p.2 = getField received p.1) ∧
      getField (processHeaders received requiredHeaders) "errors" = JVal.undefined) := by
  refine ⟨processHeaders_missing received, fun hall => ⟨?_, ?_⟩⟩
  · exact getField_processHeaders_required received hall
  · rw [processHeaders_present received requiredHeaders (by decide) hall]
    exact collectHeaders_foldl_other received requiredHeaders [] "errors" (by decide)

/-- C5, amended, at a bag without `x-fbtrex-signature`, where the error value lists that
header, and at a bag with the six headers, where the context holds the user id under
`supporterId` and has no `errors` property. -/
theorem processHeaders_complete_witness :
    (∃ p ∈ requiredHeaders, getField (headerBag unsignedBag) p.1 = JVal.undefined) ∧
    processHeaders (headerBag unsignedBag) requiredHeaders =
      [("errors", JVal.strs ["x-fbtrex-signature"])] ∧
    (∀ p ∈ requiredHeaders, getField (headerBag fullBag) p.1 ≠ JVal.undefined) ∧
    getField (processHeaders (headerBag fullBag) requiredHeaders) "supporterId" =
      JVal.str "42" ∧
    getField (processHeaders (headerBag fullBag) requiredHeaders) "errors" =
      JVal.undefined :=
  ⟨by decide,
    ((processHeaders_complete (headerBag unsignedBag)).1 (by decide)).trans (by decide),
    by decide,
    (((processHeaders_complete (headerBag fullBag)).2 (by decide)).1
      ("x-fbtrex-userid", "supporterId") (by decide)).trans (by decide),
    ((processHeaders_complete (headerBag fullBag)).2 (by decide)).2⟩

/-! ## Properties of `processEvents` -/

/-- C9 fails as stated.  The submission carries an empty header signature, in a world
whose identity store rejects the lookup: the response is an error and nothing is written,
but the chain rejects before it reaches the check of the signature, and no alarm is
emitted: the only call issued is the lookup. -/
theorem signature_failure_counterexample :
    size (getField (processHeaders blankSignatureRequest.headers requiredHeaders)
      "signature") = 0 ∧
    (processEvents sampleUtils downWorld blankSignatureRequest).2 =
      [Call.read Coll.supporters [("userId", JVal.num 42), ("publicKey", JVal.str "PK")]] ∧
    (processEvents sampleUtils downWorld blankSignatureRequest).1 =
      Except.ok { status := "error", info := Info.message "store unavailable" } :=
  ⟨by decide, by decide, rfl⟩

/-- C9, amended: for every request whose signature check fails (`verifyRequestSignature`
returns false), or whose header signature is empty, or whose resolved public key is empty,
`processEvents` returns the status `error` and issues no `writeMany` and no `updateOne`, so
that no event is written and the stored identity is not updated; and whenever the identity
resolution succeeds, so that the chain reaches the check, the last call issued is the
corresponding alarm: `Validation fail` when the header signature or the resolved public key
is empty, `Signature verification failure` otherwise. -/
theorem signature_failure_no_writes (u : Utils) (w : World) (req : Request)
    (hfail : size (getField (processHeaders req.headers requiredHeaders) "signature") = 0 ∨
      w.verifyRequestSignature req = false ∨
      (∀ s t, resolveSupporter u w (processHeaders req.headers requiredHeaders) =
          (Except.ok (some s), t) → size (getField s "publicKey") = 0)) :
    (∃ msg, (processEvents u w req).1 =
      Except.ok { status := "error", info := Info.message msg }) ∧
    (∀ c ∈ (processEvents u w req).2, isEventWrite c = false) ∧
    (∀ s t, resolveSupporter u w (processHeaders req.headers requiredHeaders) =
        (Except.ok (some s), t) →
      (processEvents u w req).2 = t ++
        [Call.reportAlarm "events"
          (if size (getField (processHeaders req.headers requiredHeaders) "signature") = 0 ∨
              size (getField s "publicKey") = 0
            then "Validation fail" else "Signature verification failure")
          (AlarmInfo.obj (processHeaders req.headers requiredHeaders))]) := by
  obtain ⟨⟨msg, hmsg⟩, hcalls, hlast⟩ := pipeline_signature_failure u w req
    (processHeaders req.headers requiredHeaders) (geoInfo w req) hfail
  rw [processEvents_eq]
  exact ⟨⟨msg, by rw [respond_error _ msg hmsg]⟩, hcalls, hlast⟩

/-- C9, amended, at a signed submission whose signature does not match the body: the
response is an error and no event write is issued. -/
theorem signature_failure_no_writes_witness :
    tamperedWorld.verifyRequestSignature fullRequest = false ∧
    (∃ msg, (processEvents sampleUtils tamperedWorld fullRequest).1 =
      Except.ok { status := "error", info := Info.message msg }) ∧
    (∀ c ∈ (processEvents sampleUtils tamperedWorld fullRequest).2,
      isEventWrite c = false) ∧
    (processEvents sampleUtils tamperedWorld fullRequest).2 =
      [Call.read Coll.supporters [("userId", JVal.num 42), ("publicKey", JVal.str "PK")],
       Call.reportAlarm "events" "Signature verification failure"
         (AlarmInfo.obj (processHeaders fullRequest.headers requiredHeaders))] :=
  ⟨rfl,
    (signature_failure_no_writes sampleUtils tamperedWorld fullRequest
      (Or.inr (Or.inl rfl))).1,
    (signature_failure_no_writes sampleUtils tamperedWorld fullRequest
      (Or.inr (Or.inl rfl))).2.1,
    ((signature_failure_no_writes sampleUtils tamperedWorld fullRequest
      (Or.inr (Or.inl rfl))).2.2 sampleSupporter
        [Call.read Coll.supporters [("userId", JVal.num 42), ("publicKey", JVal.str "PK")]]
        rfl).trans (by decide)⟩

/-- C1, what the code does: for every request in which at least one of the six required
headers is absent, and for every store, `processEvents` does return the status `error`, but
not before any call to the store.  `processHeaders` returns its list under the property
`errors` and `hasError` looks for the property `error`, so the check of the headers never
fires: the first call issued is a `read` of the supporters collection, with the user id
parsed from `undefined` and an undefined public key; and when that lookup finds nobody the
second call is the bootstrap `writeOne` on the supporters collection. -/
theorem missing_header_reaches_store (u : Utils) (w : World) (req : Request)
    (hmiss : ∃ p ∈ requiredHeaders, getField req.headers p.1 = JVal.undefined) :
    (∃ msg, (processEvents u w req).1 =
      Except.ok { status := "error", info := Info.message msg }) ∧
    (∃ rest, (processEvents u w req).2 =
      Call.read Coll.supporters
        [("userId", u.parseInt JVal.undefined), ("publicKey", JVal.undefined)] :: rest) ∧
    (w.read Coll.supporters
        [("userId", u.parseInt JVal.undefined), ("publicKey", JVal.undefined)] =
        Except.ok [] →
      ∃ rest, (processEvents u w req).2 =
        Call.read Coll.supporters
          [("userId", u.parseInt JVal.undefined), ("publicKey", JVal.undefined)] ::
        Call.writeOne Coll.supporters
          (tofuContent u (processHeaders req.headers requiredHeaders)) :: rest) := by
  have hh := processHeaders_missing req.headers hmiss
  have hsig : getField (processHeaders req.headers requiredHeaders) "signature" =
      JVal.undefined := by rw [hh]; rfl
  have hid : getField (processHeaders req.headers requiredHeaders) "supporterId" =
      JVal.undefined := by rw [hh]; rfl
  have hpk : getField (processHeaders req.headers requiredHeaders) "publickey" =
      JVal.undefined := by rw [hh]; rfl
  obtain ⟨⟨msg, hmsg⟩, _, _⟩ := pipeline_signature_failure u w req
    (processHeaders req.headers requiredHeaders) (geoInfo w req)
    (Or.inl (by rw [hsig]; rfl))
  obtain ⟨rest1, h1⟩ := pipeline_starts u w req
    (processHeaders req.headers requiredHeaders) (geoInfo w req)
  rw [processEvents_eq]
  refine ⟨⟨msg, by rw [respond_error _ msg hmsg]⟩, ?_, ?_⟩
  · obtain ⟨rest2, h2⟩ := resolveSupporter_starts u w
      (processHeaders req.headers requiredHeaders)
    rw [hid, hpk] at h2
    exact ⟨rest2 ++ rest1, by rw [h1, h2]; rfl⟩
  · intro hread
    have h2 := resolveSupporter_empty u w (processHeaders req.headers requiredHeaders)
      (by rw [hid, hpk]; exact hread)
    rw [hid, hpk] at h2
    rw [h1, h2]
    exact ⟨_, rfl⟩

/-- C1 at the submission without `x-fbtrex-signature`, on an empty identity store: the
calls issued are the lookup, the bootstrap write of a record without user id and public
key, the `TOFU` alarm and the `Validation fail` alarm; the status is `error`. -/
theorem missing_header_reaches_store_witness :
    (∃ p ∈ requiredHeaders, getField unsignedRequest.headers p.1 = JVal.undefined) ∧
    (processEvents sampleUtils emptyWorld unsignedRequest).1 =
      Except.ok { status := "error", info := Info.message "Signature can't be verify" } ∧
    (processEvents sampleUtils emptyWorld unsignedRequest).2 =
      [Call.read Coll.supporters [("userId", JVal.nan), ("publicKey", JVal.undefined)],
       Call.writeOne Coll.supporters
         [("userId", JVal.nan), ("publicKey", JVal.undefined),
          ("userSecret", JVal.str "undefined"),
          ("keyTime", JVal.date "2024-01-02T00:00:00.000Z"),
          ("lastActivity", JVal.date "2024-01-02T00:00:00.000Z"),
          ("tofu", JVal.bool true)],
       Call.reportAlarm "events" "TOFU" AlarmInfo.ack,
       Call.reportAlarm "events" "Validation fail"
         (AlarmInfo.obj [("errors", JVal.strs ["x-fbtrex-signature"])])] ∧
    (∃ rest, (processEvents sampleUtils emptyWorld unsignedRequest).2 =
      Call.read Coll.supporters
        [("userId", sampleUtils.parseInt JVal.undefined),
         ("publicKey", JVal.undefined)] :: rest) :=
  ⟨by decide, rfl, by decide,
    (missing_header_reaches_store sampleUtils emptyWorld unsignedRequest (by decide)).2.1⟩

/-- C2, what the code does: for every request whose batch holds at least one event whose
type is neither `timeline` nor `impression`, whatever the identity, the signature and the
store, `promisifyInputs` calls `reportError`, which throws before any write is created;
`processEvents` returns the status `error` and issues no `writeMany` and no `updateOne`:
the well-formed events of the batch are not written. -/
theorem invalid_type_aborts_batch (u : Utils) (w : World) (req : Request)
    (hbad : ∃ e ∈ req.body, isTimeline e = false ∧ isImpression e = false) :
    (∀ geoinfo supporter,
      promisifyInputs u req.body geoinfo supporter = Except.error "req is not defined") ∧
    (∃ msg, (processEvents u w req).1 =
      Except.ok { status := "error", info := Info.message msg }) ∧
    (∀ c ∈ (processEvents u w req).2, isEventWrite c = false) := by
  have hthrow : ∀ supporter, persist u w req (geoInfo w req) supporter =
      (Except.error "req is not defined", []) := by
    intro supporter
    simp [persist, promisifyInputs_invalid u req.body (geoInfo w req) supporter hbad,
      Step.throw]
  have hcalls := resolveSupporter_calls u w (processHeaders req.headers requiredHeaders)
  refine ⟨fun geoinfo supporter => promisifyInputs_invalid u req.body geoinfo supporter hbad,
    ?_⟩
  rw [processEvents_eq, pipeline_eq]
  rcases hres : resolveSupporter u w (processHeaders req.headers requiredHeaders) with
    ⟨r, t⟩
  rw [hres] at hcalls
  cases r with
  | error e =>
    rw [Step.bind_error _ _ e rfl]
    exact ⟨⟨e, by rw [respond_error _ e rfl]⟩, hcalls⟩
  | ok a =>
    rw [Step.bind_ok _ _ a rfl]
    have hcheck := checkSignature_calls w req (processHeaders req.headers requiredHeaders) a
    rcases hc : checkSignature w req (processHeaders req.headers requiredHeaders) a with
      ⟨r2, t2⟩
    rw [hc] at hcheck
    cases r2 with
    | error e =>
      rw [Step.bind_error _ _ e rfl]
      refine ⟨⟨e, by rw [respond_error _ e rfl]⟩, ?_⟩
      intro c hmem
      rcases List.mem_append.mp hmem with h | h
      · exact hcalls c h
      · exact (hcheck c h).1
    | ok s =>
      rw [Step.bind_ok _ _ s rfl, hthrow s]
      refine ⟨⟨"req is not defined", by rw [respond_error _ _ rfl]⟩, ?_⟩
      intro c hmem
      simp only [List.append_nil] at hmem
      rcases List.mem_append.mp hmem with h | h
      · exact hcalls c h
      · exact (hcheck c h).1

/-- C2 at a signed batch of one timeline event and one event of type `refresh`, with a
known identity, a valid signature and a store that accepts every write: the status is
`error` and the only call issued is the lookup of the identity; the timeline is not
written. -/
theorem invalid_type_aborts_batch_witness :
    (∃ e ∈ mixedRequest.body, isTimeline e = false ∧ isImpression e = false) ∧
    (processEvents sampleUtils knownWorld mixedRequest).1 =
      Except.ok { status := "error", info := Info.message "req is not defined" } ∧
    (processEvents sampleUtils knownWorld mixedRequest).2 =
      [Call.read Coll.supporters [("userId", JVal.num 42), ("publicKey", JVal.str "PK")]] ∧
    (∀ c ∈ (processEvents sampleUtils knownWorld mixedRequest).2,
      isEventWrite c = false) :=
  ⟨by decide, rfl, by decide,
    (invalid_type_aborts_batch sampleUtils knownWorld mixedRequest (by decide)).2.2⟩

/-- C7, what the code does: the bootstrap reads `headers.publicKey`, and the manifest
stores the header `x-fbtrex-publickey` under `publickey`; so, for every header bag, the
`publicKey` entry of the object that is hashed into `userSecret` is `undefined`, and the
secret does not depend on the claimed public key.  On an empty identity store, the
submissions of user 42 under the public keys `PK` and `PK2` at the same instant write
records with the same `userSecret`, while the two objects the claim names have different
hashes. -/
theorem tofu_secret_ignores_public_key :
    (∀ (u : Utils) (received : JObj),
      getField (tofuContent u (processHeaders received requiredHeaders)) "userSecret" =
        JVal.str (u.hash [("publicKey", JVal.undefined),
          ("userId", getField (processHeaders received requiredHeaders) "supporterId"),
          ("when", JVal.str u.now)])) ∧
    getField fullRequest.headers "x-fbtrex-publickey" = JVal.str "PK" ∧
    getField otherKeyRequest.headers "x-fbtrex-publickey" = JVal.str "PK2" ∧
    getField (tofuContent sampleUtils
        (processHeaders fullRequest.headers requiredHeaders)) "userSecret" =
      getField (tofuContent sampleUtils
        (processHeaders otherKeyRequest.headers requiredHeaders)) "userSecret" ∧
    (processEvents sampleUtils emptyWorld fullRequest).2.get? 1 =
      some (Call.writeOne Coll.supporters
        (tofuContent sampleUtils (processHeaders fullRequest.headers requiredHeaders))) ∧
    (processEvents sampleUtils emptyWorld otherKeyRequest).2.get? 1 =
      some (Call.writeOne Coll.supporters
        (tofuContent sampleUtils
          (processHeaders otherKeyRequest.headers requiredHeaders))) ∧
    sampleUtils.hash [("publicKey", JVal.str "PK"), ("userId", JVal.str "42"),
        ("when", JVal.str sampleUtils.now)] ≠
      sampleUtils.hash [("publicKey", JVal.str "PK2"), ("userId", JVal.str "42"),
        ("when", JVal.str sampleUtils.now)] := by
  refine ⟨?_, by decide, by decide, by decide, by decide, by decide, by decide⟩
  intro u received
  have h := getField_processHeaders_other received "publicKey" (by decide) (by decide)
  simp [tofuContent, getField, List.lookup] at h ⊢
  rw [h]

/-- C6 fails as stated, in two worlds.  The submission of user 42 carries the six required
headers and its lookup returns zero matches.  When the store rejects `writeOne`, the calls
issued are the lookup and the bootstrap write, no alarm `TOFU` is emitted, and the response
is the error of the store.  When the store acknowledges the write and the alarm sink
rejects the alarm, the chain does not continue with the created record: no further call
is issued and the response is the error of the sink. -/
theorem tofu_bootstrap_counterexample :
    (∀ p ∈ requiredHeaders, getField fullRequest.headers p.1 ≠ JVal.undefined) ∧
    rejectingWorld.read Coll.supporters
      [("userId", sampleUtils.parseInt (getField fullRequest.headers "x-fbtrex-userid")),
       ("publicKey", getField fullRequest.headers "x-fbtrex-publickey")] = Except.ok [] ∧
    (processEvents sampleUtils rejectingWorld fullRequest).2 =
      [Call.read Coll.supporters [("userId", JVal.num 42), ("publicKey", JVal.str "PK")],
       Call.writeOne Coll.supporters
         (tofuContent sampleUtils (processHeaders fullRequest.headers requiredHeaders))] ∧
    (processEvents sampleUtils rejectingWorld fullRequest).2.filter isTofuAlarm = [] ∧
    (processEvents sampleUtils rejectingWorld fullRequest).1 =
      Except.ok { status := "error", info := Info.message "store unavailable" } ∧
    deafWorld.read Coll.supporters
      [("userId", sampleUtils.parseInt (getField fullRequest.headers "x-fbtrex-userid")),
       ("publicKey", getField fullRequest.headers "x-fbtrex-publickey")] = Except.ok [] ∧
    (processEvents sampleUtils deafWorld fullRequest).2 =
      [Call.read Coll.supporters [("userId", JVal.num 42), ("publicKey", JVal.str "PK")],
       Call.writeOne Coll.supporters
         (tofuContent sampleUtils (processHeaders fullRequest.headers requiredHeaders)),
       Call.reportAlarm "events" "TOFU" AlarmInfo.ack] ∧
    (processEvents sampleUtils deafWorld fullRequest).1 =
      Except.ok { status := "error", info := Info.message "sink unavailable" } :=
  ⟨by decide, rfl, by decide, by decide, rfl, rfl, by decide, rfl⟩

/-- C6, amended: for every request that carries the six required headers and whose lookup
in the identity store returns zero matches, `processEvents` issues exactly one `writeOne`,
on the supporters collection, of a record with `tofu` true, `userId` the parsed header
user id and `publicKey` the header public key.  When the store acknowledges that write,
exactly one alarm with caller `events` and what `TOFU` is emitted; when the store rejects
it, none is emitted and the response is the error of the store.  When the write and the
alarm are both acknowledged, the identity resolution yields the created record, and only
it, after the three calls lookup, bootstrap write and alarm. -/
theorem tofu_bootstrap (u : Utils) (w : World) (req : Request)
    (hall : ∀ p ∈ requiredHeaders, getField req.headers p.1 ≠ JVal.undefined)
    (hread : w.read Coll.supporters
      [("userId", u.parseInt (getField req.headers "x-fbtrex-userid")),
       ("publicKey", getField req.headers "x-fbtrex-publickey")] = Except.ok []) :
    ∃ content : JObj,
      content = tofuContent u (processHeaders req.headers requiredHeaders) ∧
      getField content "tofu" = JVal.bool true ∧
      getField content "userId" = u.parseInt (getField req.headers "x-fbtrex-userid") ∧
      getField content "publicKey" = getField req.headers "x-fbtrex-publickey" ∧
      (processEvents u w req).2.filter isWriteOne =
        [Call.writeOne Coll.supporters content] ∧
      (w.writeOne Coll.supporters content = Except.ok () →
        (processEvents u w req).2.filter isTofuAlarm =
          [Call.reportAlarm "events" "TOFU" AlarmInfo.ack]) ∧
      (∀ e, w.writeOne Coll.supporters content = Except.error e →
        (processEvents u w req).2.filter isTofuAlarm = [] ∧
        (processEvents u w req).1 =
          Except.ok { status := "error", info := Info.message e }) ∧
      (w.writeOne Coll.supporters content = Except.ok () →
        w.reportAlarm "events" "TOFU" AlarmInfo.ack = Except.ok () →
        resolveSupporter u w (processHeaders req.headers requiredHeaders) =
          (Except.ok (some content),
            [Call.read Coll.supporters
              [("userId", u.parseInt (getField req.headers "x-fbtrex-userid")),
               ("publicKey", getField req.headers "x-fbtrex-publickey")],
             Call.writeOne Coll.supporters content,
             Call.reportAlarm "events" "TOFU" AlarmInfo.ack])) := by
  have hid := getField_processHeaders_required req.headers hall
    ("x-fbtrex-userid", "supporterId") (by decide)
  have hpk := getField_processHeaders_required req.headers hall
    ("x-fbtrex-publickey", "publickey") (by decide)
  simp only [] at hid hpk
  have hres := resolveSupporter_empty u w (processHeaders req.headers requiredHeaders)
    (by rw [hid, hpk]; exact hread)
  rw [hid, hpk] at hres
  have hone := pipeline_filter u w req (processHeaders req.headers requiredHeaders)
    (geoInfo w req) isWriteOne (fun a c hc => (tail_calls u w req _ _ a c hc).1)
  have htofu := pipeline_filter u w req (processHeaders req.headers requiredHeaders)
    (geoInfo w req) isTofuAlarm (fun a c hc => (tail_calls u w req _ _ a c hc).2)
  refine ⟨_, rfl, ?_, ?_, ?_, ?_, ?_, ?_, ?_⟩
  · simp [tofuContent, getField, List.lookup]
  · simp [tofuContent, getField, List.lookup] at hid ⊢
    rw [hid]
  · simp [tofuContent, getField, List.lookup] at hpk ⊢
    rw [hpk]
  · rw [processEvents_eq, hone, hres]
    cases w.writeOne Coll.supporters
      (tofuContent u (processHeaders req.headers requiredHeaders)) <;>
      simp [List.filter, isWriteOne]
  · intro hw
    rw [processEvents_eq, htofu, hres, hw]
    simp [List.filter, isWriteOne, isTofuAlarm]
  · intro e hw
    rw [processEvents_eq, htofu, hres, hw]
    refine ⟨by simp [List.filter, isTofuAlarm], ?_⟩
    have hp : (pipeline u w req (processHeaders req.headers requiredHeaders)
        (geoInfo w req)).1 = Except.error e := by
      rw [pipeline_eq, Step.bind_error _ _ e (by rw [hres, hw])]
    rw [respond_error _ e hp]
  · intro hw ha
    rw [hres, hw, ha]
    rfl

/-- C6, amended, at the first submission of user 42 on an empty identity store that
acknowledges every call: one bootstrap write and one alarm `TOFU`. -/
theorem tofu_bootstrap_witness :
    (∀ p ∈ requiredHeaders, getField fullRequest.headers p.1 ≠ JVal.undefined) ∧
    emptyWorld.read Coll.supporters
      [("userId", sampleUtils.parseInt (getField fullRequest.headers "x-fbtrex-userid")),
       ("publicKey", getField fullRequest.headers "x-fbtrex-publickey")] = Except.ok [] ∧
    ∃ content : JObj,
      getField content "tofu" = JVal.bool true ∧
      getField content "userId" = JVal.num 42 ∧
      getField content "publicKey" = JVal.str "PK" ∧
      (processEvents sampleUtils emptyWorld fullRequest).2.filter isWriteOne =
        [Call.writeOne Coll.supporters content] ∧
      (processEvents sampleUtils emptyWorld fullRequest).2.filter isTofuAlarm =
        [Call.reportAlarm "events" "TOFU" AlarmInfo.ack] := by
  refine ⟨by decide, rfl, ?_⟩
  obtain ⟨content, _, h1, h2, h3, h4, h5, _, _⟩ :=
    tofu_bootstrap sampleUtils emptyWorld fullRequest (by decide) rfl
  exact ⟨content, h1, h2.trans (by decide), h3.trans (by decide), h4, h5 rfl⟩

end Fbtrex
